import Mathlib

/-!
# Verification of the SQL condition-translation core (soapjs/soap-node-sql)

Shallow embedding of the repository's where-clause compiler
(`src/sql.where.parser.ts`), statement utilities (`src/sql.utils.ts`),
query factory (`sql.query-factory.ts`) and field resolver
(`src/sql.field-resolver.ts`), together with theorems settling the spec
claims about them.

JavaScript runtime values are modelled by the inductive `JsVal`
(`null`, `undefined`, booleans, numbers as integers, strings, arrays
and plain objects with insertion-ordered string keys).  `Date` objects
and functions are not modelled; no claim depends on them.  Mutation of
the `params` accumulator array (only ever `push`) is modelled by
returning the list of pushed values, concatenated in push order by the
callers.  General recursion of the criteria parser is modelled with an
explicit fuel argument; fuel exhaustion returns the empty clause, and
every invariant below is proved for all fuel values, hence in
particular for the value the terminating JavaScript run computes.
-/

/-- Model of a JavaScript runtime value. -/
inductive JsVal where
  | vNull
  | vUndef
  | vBool (b : Bool)
  | vNum (n : Int)
  | vStr (s : String)
  | vArr (elems : List JsVal)
  | vObj (fields : List (String × JsVal))

/-- The three supported SQL dialects (`DatabaseType` in `sql.types.ts`). -/
inductive DatabaseType where
  | mysql
  | postgresql
  | sqlite
deriving Repr, DecidableEq

namespace JsVal

/-- JavaScript truthiness of a modelled value (`!!v`).  `NaN` is not
modelled; every modelled number other than `0` is truthy. -/
def truthy : JsVal → Bool
  | vNull => false
  | vUndef => false
  | vBool b => b
  | vNum n => n != 0
  | vStr s => !s.isEmpty
  | vArr _ => true
  | vObj _ => true

/-- `typeof v === 'object' && v !== null` for modelled values. -/
def isObjLike : JsVal → Bool
  | vArr _ => true
  | vObj _ => true
  | _ => false

/-- `typeof v === 'object' && v !== null && !Array.isArray(v)`. -/
def isPlainObj : JsVal → Bool
  | vObj _ => true
  | _ => false

/-- `Array.isArray(v)`. -/
def isArr : JsVal → Bool
  | vArr _ => true
  | _ => false

/-- `v === null || v === undefined`. -/
def isNullish : JsVal → Bool
  | vNull => true
  | vUndef => true
  | _ => false

/-- `Object.entries(v)`: fields of an object in insertion order, index
keys for an array, `[]` for primitives. -/
def entriesOf : JsVal → List (String × JsVal)
  | vObj fields => fields
  | vArr elems => (elems.enum.map fun (i, v) => (toString i, v))
  | _ => []

/-- The element list of an array value, `none` otherwise (the
`Array.isArray` view used where the code iterates a value as an
array). -/
def asArr? : JsVal → Option (List JsVal)
  | vArr elems => some elems
  | _ => none

/-- Property access `v[key]`; `undefined` when absent.  (In JavaScript,
property access on `null`/`undefined` throws; that path is unreachable
in the translated code for the inputs considered here and is modelled
as `undefined`.) -/
def jsGet (v : JsVal) (key : String) : JsVal :=
  match v with
  | vObj fields =>
    match fields.find? (fun kv => kv.1 == key) with
    | some kv => kv.2
    | none => vUndef
  | _ => vUndef

end JsVal

open JsVal

/-- Number of `'?'` characters in a string — the positional-placeholder
count of an emitted SQL fragment. -/
def countQ (s : String) : Nat :=
  s.data.count '?'

/-- `Array.prototype.join(sep)` on a list of strings. -/
def joinSep (sep : String) : List String → String
  | [] => ""
  | [x] => x
  | x :: xs => x ++ sep ++ joinSep sep xs

/-- `String.prototype.replace(pat, '')` with a plain-string pattern:
removes the first occurrence of `pat`, char-list version. -/
def removeFirstL (pat : List Char) : List Char → List Char
  | [] => []
  | c :: rest =>
    if pat.isPrefixOf (c :: rest) then (c :: rest).drop pat.length
    else c :: removeFirstL pat rest

/-- `String.prototype.replace(pat, '')` on strings. -/
def removeFirst (s pat : String) : String :=
  String.mk (removeFirstL pat.data s.data)

/-- JavaScript integer-to-string coercion for the modelled numbers. -/
def jsIntStr (n : Int) : String := toString n

/-- JSON string-literal escaping used by `JSON.stringify` (quotes,
backslashes and the common control characters). -/
def jsonQuoteChar (c : Char) : List Char :=
  if c = '"' then ['\\', '"']
  else if c = '\\' then ['\\', '\\']
  else if c = '\n' then ['\\', 'n']
  else if c = '\t' then ['\\', 't']
  else if c = '\r' then ['\\', 'r']
  else [c]

/-- `JSON.stringify` of a string value. -/
def jsonQuote (s : String) : String :=
  "\"" ++ String.mk (s.data.flatMap jsonQuoteChar) ++ "\""

mutual

/-- `JSON.stringify(v)` for modelled values (`undefined` renders as
`null`, which is its rendering inside arrays, the only place the
translated code can reach it). -/
def jsonStringify : JsVal → String
  | .vNull => "null"
  | .vUndef => "null"
  | .vBool b => if b then "true" else "false"
  | .vNum n => jsIntStr n
  | .vStr s => jsonQuote s
  | .vArr xs => "[" ++ jsonArrStr xs ++ "]"
  | .vObj fs => "\x7b" ++ jsonObjStr fs ++ "\x7d"

/-- Comma-joined renderings of array elements. -/
def jsonArrStr : List JsVal → String
  | [] => ""
  | [x] => jsonStringify x
  | x :: xs => jsonStringify x ++ "," ++ jsonArrStr xs

/-- Comma-joined `"key":value` renderings; properties holding
`undefined` are omitted, as `JSON.stringify` does. -/
def jsonObjStr : List (String × JsVal) → String
  | [] => ""
  | (k, v) :: rest =>
    match v with
    | .vUndef => jsonObjStr rest
    | _ =>
      let s := jsonQuote k ++ ":" ++ jsonStringify v
      let r := jsonObjStr rest
      if r = "" then s else s ++ "," ++ r

end

mutual

/-- JavaScript template-literal coercion `${v}` for modelled values. -/
def templateStr : JsVal → String
  | .vNull => "null"
  | .vUndef => "undefined"
  | .vBool b => if b then "true" else "false"
  | .vNum n => jsIntStr n
  | .vStr s => s
  | .vArr xs => templateArrStr xs
  | .vObj _ => "[object Object]"

/-- `Array.prototype.toString`: elements joined by `,`, with `null` and
`undefined` elements rendered empty. -/
def templateArrStr : List JsVal → String
  | [] => ""
  | [x] => templateElemStr x
  | x :: xs => templateElemStr x ++ "," ++ templateArrStr xs

/-- One array element inside `Array.prototype.toString`. -/
def templateElemStr : JsVal → String
  | .vNull => ""
  | .vUndef => ""
  | x => templateStr x

end

/-! ## Where Translator (`src/sql.where.parser.ts`, class `SqlWhereParser`)

Configuration of one parser instance: the dialect and the optional
table alias.  Field mappings are stored by the class but never read by
any of its translation methods, so they are omitted from the model. -/

/-- Constructor state of `SqlWhereParser` that translation reads. -/
structure ParserCfg where
  databaseType : DatabaseType
  tableAlias : Option String

/-- `ParsedWhereClause`. -/
structure Parsed where
  sql : String
  params : List JsVal
  hasConditions : Bool

/-- The empty `ParsedWhereClause` `{ sql: '', params: [], hasConditions: false }`. -/
def emptyParsed : Parsed := ⟨"", [], false⟩

/-- `_escapeIdentifier`: wraps in backticks and backslash-escapes
backticks and quotes (`identifier.replace(/[`'"]/g, '\\$&')`), for
every dialect alike. -/
def escWhereChar (c : Char) : List Char :=
  if c = '`' ∨ c = '\'' ∨ c = '"' then ['\\', c] else [c]

/-- `_escapeIdentifier(identifier)`. -/
def escapeIdentifierW (identifier : String) : String :=
  "`" ++ String.mk (identifier.data.flatMap escWhereChar) ++ "`"

/-- `_getFieldReference(field)`: alias-qualified escaped identifier;
an unset (or empty, hence falsy) alias is not prefixed. -/
def getFieldReference (cfg : ParserCfg) (field : String) : String :=
  match cfg.tableAlias with
  | some a => if a.isEmpty then escapeIdentifierW field
              else a ++ "." ++ escapeIdentifierW field
  | none => escapeIdentifierW field

/-- `_buildComparison(field, operator, value, params)`. -/
def buildComparison (fieldRef op : String) (value : JsVal) : String × List JsVal :=
  (fieldRef ++ (" " ++ op ++ " ?"), [value])

/-- `_buildInCondition(field, values, params, negate)`. -/
def buildInCondition (fieldRef : String) (values : JsVal) (negate : Bool) :
    String × List JsVal :=
  match values with
  | .vArr [] => (if negate then "1=1" else "1=0", [])
  | .vArr vs =>
    (fieldRef ++ (" " ++ (if negate then "NOT IN" else "IN") ++ " (")
      ++ joinSep ", " (vs.map fun _ => "?") ++ ")", vs)
  | _ => (if negate then "1=1" else "1=0", [])

/-- `_buildLikeCondition(field, pattern, params, negate)`. -/
def buildLikeCondition (fieldRef : String) (pattern : JsVal) (negate : Bool) :
    String × List JsVal :=
  (fieldRef ++ (" " ++ (if negate then "NOT LIKE" else "LIKE") ++ " ?"), [pattern])

/-- One step of `_regexToLike`: `.replace(/x/g, y)` on single characters. -/
def repChar (a b : Char) (l : List Char) : List Char :=
  l.map fun c => if c = a then b else c

/-- Scans past the first `closeC`; `some rest` leaves the characters
after it, `none` when the list has no `closeC`.  This is the lazy group
match of `/\[.*?\]/` and `/\(.*?\)/`. -/
def dropThroughClose (closeC : Char) : List Char → Option (List Char)
  | [] => none
  | c :: rest => if c = closeC then some rest else dropThroughClose closeC rest

theorem dropThroughClose_length {closeC : Char} :
    ∀ {l rest : List Char}, dropThroughClose closeC l = some rest →
      rest.length < l.length := by
  intro l
  induction l with
  | nil => intro rest h; simp [dropThroughClose] at h
  | cons c cs ih =>
    intro rest h
    by_cases hc : c = closeC
    · simp [dropThroughClose, hc] at h
      simp [← h]
    · simp [dropThroughClose, hc] at h
      have := ih h
      simp
      omega

/-- `.replace(/\[.*?\]/g, '_')` (and the paren version): every lazily
matched `openC … closeC` group becomes a single `'_'`. -/
def repGroup (openC closeC : Char) : List Char → List Char
  | [] => []
  | c :: rest =>
    if c = openC then
      match h : dropThroughClose closeC rest with
      | some after => '_' :: repGroup openC closeC after
      | none => c :: repGroup openC closeC rest
    else c :: repGroup openC closeC rest
termination_by l => l.length
decreasing_by
  all_goals simp
  all_goals exact Nat.lt_succ_of_lt (dropThroughClose_length h)

/-- `_regexToLike(regex)`: `.`→`_`, `*`→`%`, `?`→`_`, bracket groups
and paren groups →`_`, then a leading and a trailing `%`. -/
def regexToLike (regex : String) : String :=
  let l1 := repChar '.' '_' regex.data
  let l2 := repChar '*' '%' l1
  let l3 := repChar '?' '_' l2
  let l4 := repGroup '[' ']' l3
  let l5 := repGroup '(' ')' l4
  String.mk ('%' :: l5 ++ ['%'])

/-- `_buildRegexCondition(field, pattern, params, negate)`: rewrites the
pattern with `_regexToLike` and delegates to the LIKE builder.  (A
non-string pattern would make `pattern.replace` throw in JavaScript;
the callers below only pass strings.) -/
def buildRegexCondition (fieldRef : String) (pattern : String) (negate : Bool) :
    String × List JsVal :=
  buildLikeCondition fieldRef (.vStr (regexToLike pattern)) negate

/-- `_buildExistsCondition(field, value, params, negate)`; `if (value)`
is JavaScript truthiness. -/
def buildExistsCondition (fieldRef : String) (value : JsVal) (negate : Bool) :
    String × List JsVal :=
  if value.truthy then
    (if negate then fieldRef ++ " IS NULL" else fieldRef ++ " IS NOT NULL", [])
  else
    (if negate then fieldRef ++ " IS NOT NULL" else fieldRef ++ " IS NULL", [])

/-- `_buildBetweenCondition(field, values, params, negate)`: needs an
array of exactly two values, else degrades to `1=0`/`1=1`. -/
def buildBetweenCondition (fieldRef : String) (values : JsVal) (negate : Bool) :
    String × List JsVal :=
  match values with
  | .vArr [a, b] =>
    (fieldRef ++ " " ++ (if negate then "NOT BETWEEN" else "BETWEEN") ++ " ? AND ?", [a, b])
  | _ => (if negate then "1=1" else "1=0", [])

/-- `_createJsonExtractCondition(field, path, value, params)`; the path
is spliced into the SQL text by template interpolation. -/
def createJsonExtractCondition (cfg : ParserCfg) (field : String) (path value : JsVal) :
    String × List JsVal :=
  let fieldRef := getFieldReference cfg field
  match cfg.databaseType with
  | .postgresql => (fieldRef ++ "->>'" ++ templateStr path ++ "' = ?", [value])
  | .mysql => ("JSON_EXTRACT(" ++ fieldRef ++ ", '" ++ templateStr path ++ "') = ?", [value])
  | .sqlite => ("json_extract(" ++ fieldRef ++ ", '" ++ templateStr path ++ "') = ?", [value])

/-- `_createJsonPathCondition(field, path, params)`: PostgreSQL emits a
containment placeholder WITHOUT binding a parameter; other dialects
fall back to `_createJsonExtractCondition` with a `null` value. -/
def createJsonPathCondition (cfg : ParserCfg) (field : String) (path : JsVal) :
    String × List JsVal :=
  let fieldRef := getFieldReference cfg field
  match cfg.databaseType with
  | .postgresql => (fieldRef ++ " @> ?", [])
  | _ => createJsonExtractCondition cfg field path .vNull

/-- `_createFullTextSearchCondition(field, searchTerm, params)`. -/
def createFullTextSearchCondition (cfg : ParserCfg) (field : String) (searchTerm : JsVal) :
    String × List JsVal :=
  let fieldRef := getFieldReference cfg field
  match cfg.databaseType with
  | .postgresql =>
    ("to_tsvector('english', " ++ fieldRef ++ ") @@ plainto_tsquery('english', ?)", [searchTerm])
  | .mysql => ("MATCH(" ++ fieldRef ++ ") AGAINST(? IN BOOLEAN MODE)", [searchTerm])
  | .sqlite => (fieldRef ++ " MATCH ?", [searchTerm])

/-- `_createArrayContainsCondition(field, values, params)`.  The
JavaScript `switch` also has a dead `default` arm (an `IN` fallback)
that no member of the three-valued dialect type can reach. -/
def createArrayContainsCondition (cfg : ParserCfg) (field : String) (values : JsVal) :
    String × List JsVal :=
  let fieldRef := getFieldReference cfg field
  match cfg.databaseType with
  | .postgresql => (fieldRef ++ " @> ?", [values])
  | .mysql => ("JSON_CONTAINS(" ++ fieldRef ++ ", ?)", [.vStr (jsonStringify values)])
  | .sqlite => ("json_extract(" ++ fieldRef ++ ", '$') = ?", [.vStr (jsonStringify values)])

/-- `_createTextSearchCondition(field, searchTerm, params)`: simple
LIKE search with the term wrapped in `%…%` by template interpolation. -/
def createTextSearchCondition (cfg : ParserCfg) (field : String) (searchTerm : JsVal) :
    String × List JsVal :=
  let fieldRef := getFieldReference cfg field
  (fieldRef ++ " LIKE ?", [.vStr ("%" ++ templateStr searchTerm ++ "%")])

/-- `_parseSimpleCondition(field, value, params)`: literal equality,
with `null` and `undefined` both mapped to `IS NULL`. -/
def parseSimpleCondition (cfg : ParserCfg) (field : String) (value : JsVal) :
    String × List JsVal :=
  let fieldRef := getFieldReference cfg field
  match value with
  | .vNull => (fieldRef ++ " IS NULL", [])
  | .vUndef => (fieldRef ++ " IS NULL", [])
  | v => buildComparison fieldRef "=" v

/-- A fragment-and-parameters pair `r` returned as the
`(condition-string, pushed-params)` effect of a dispatch arm
(`return <fragment>` after its `params.push` calls, i.e. `(some r.1, r.2)`). -/
def someize (r : String × List JsVal) : Option String × List JsVal :=
  (some r.1, r.2)

/-- `_parseFieldOperator(field, operator, value, params)`: the
dispatch table of the plain-criteria front end.  `none` models the
`null` return of the unknown-operator arm.  (The source binds
`fieldRef` once at the top; it is written inline here, value for
value the same.) -/
def parseFieldOperator (cfg : ParserCfg) (field : String) (operator : String)
    (value : JsVal) : Option String × List JsVal :=
  if operator = "eq" then
    someize (buildComparison (getFieldReference cfg field) "=" value)
  else if operator = "ne" then
    someize (buildComparison (getFieldReference cfg field) "!=" value)
  else if operator = "gt" then
    someize (buildComparison (getFieldReference cfg field) ">" value)
  else if operator = "gte" then
    someize (buildComparison (getFieldReference cfg field) ">=" value)
  else if operator = "lt" then
    someize (buildComparison (getFieldReference cfg field) "<" value)
  else if operator = "lte" then
    someize (buildComparison (getFieldReference cfg field) "<=" value)
  else if operator = "in" then
    someize (buildInCondition (getFieldReference cfg field) value false)
  else if operator = "nin" then
    someize (buildInCondition (getFieldReference cfg field) value true)
  else if operator = "like" then
    someize (buildLikeCondition (getFieldReference cfg field) value false)
  else if operator = "nlike" then
    someize (buildLikeCondition (getFieldReference cfg field) value true)
  else if operator = "regex" then
    match value with
    | .vStr p => someize (buildRegexCondition (getFieldReference cfg field) p false)
    | _ => (some "", [])
  else if operator = "nregex" then
    match value with
    | .vStr p => someize (buildRegexCondition (getFieldReference cfg field) p true)
    | _ => (some "", [])
  else if operator = "exists" then
    someize (buildExistsCondition (getFieldReference cfg field) value false)
  else if operator = "nexists" then
    someize (buildExistsCondition (getFieldReference cfg field) value true)
  else if operator = "between" then
    someize (buildBetweenCondition (getFieldReference cfg field) value false)
  else if operator = "nbetween" then
    someize (buildBetweenCondition (getFieldReference cfg field) value true)
  else if operator = "json_extract" then
    someize (createJsonExtractCondition cfg field (value.jsGet "path") (value.jsGet "value"))
  else if operator = "json_path" then
    someize (createJsonPathCondition cfg field value)
  else if operator = "full_text_search" then
    someize (createFullTextSearchCondition cfg field (value.jsGet "value"))
  else if operator = "array_contains" then
    someize (createArrayContainsCondition cfg field (value.jsGet "values"))
  else if operator = "text_search" then
    someize (createTextSearchCondition cfg field (value.jsGet "value"))
  else
    (none, [])

/-- `_parseFieldOperators(field, operators, params)`: runs every
`operator: value` entry, keeps the truthy fragments, joins them with
`AND`; `none` models the `null` return when no fragment was kept. -/
def parseFieldOperatorEntries (cfg : ParserCfg) (field : String) :
    List (String × JsVal) → List String × List JsVal
  | [] => ([], [])
  | (op, v) :: rest =>
    let r := parseFieldOperator cfg field op v
    let acc := parseFieldOperatorEntries cfg field rest
    match r.1 with
    | some c => if c.isEmpty then (acc.1, r.2 ++ acc.2) else (c :: acc.1, r.2 ++ acc.2)
    | none => (acc.1, r.2 ++ acc.2)

/-- `_parseFieldOperators(field, operators, params)`. -/
def parseFieldOperators (cfg : ParserCfg) (field : String) (operators : JsVal) :
    Option String × List JsVal :=
  let acc := parseFieldOperatorEntries cfg field operators.entriesOf
  (if acc.1.isEmpty then none else some (joinSep " AND " acc.1), acc.2)

/-- `createCondition(field, operator, value, params)`: the
Condition-model front end's dispatch table.  Only nine operators are
implemented; everything else falls through to the `default` arm, a
bound equality comparison. -/
def createCondition (cfg : ParserCfg) (field operator : String) (value : JsVal) :
    String × List JsVal :=
  if operator = "eq" then
    if value.isNullish then (getFieldReference cfg field ++ " IS NULL", [])
    else (getFieldReference cfg field ++ " = ?", [value])
  else if operator = "ne" then
    if value.isNullish then (getFieldReference cfg field ++ " IS NOT NULL", [])
    else (getFieldReference cfg field ++ " != ?", [value])
  else if operator = "gt" then (getFieldReference cfg field ++ " > ?", [value])
  else if operator = "gte" then (getFieldReference cfg field ++ " >= ?", [value])
  else if operator = "lt" then (getFieldReference cfg field ++ " < ?", [value])
  else if operator = "lte" then (getFieldReference cfg field ++ " <= ?", [value])
  else if operator = "in" then
    match value.asArr? with
    | some [] => ("1=0", [])
    | some vs =>
      (getFieldReference cfg field ++ " IN (" ++ joinSep ", " (vs.map fun _ => "?") ++ ")", vs)
    | none => ("1=0", [])
  else if operator = "nin" then
    match value.asArr? with
    | some [] => ("1=1", [])
    | some vs =>
      (getFieldReference cfg field ++ " NOT IN ("
        ++ joinSep ", " (vs.map fun _ => "?") ++ ")", vs)
    | none => ("1=1", [])
  else if operator = "like" then (getFieldReference cfg field ++ " LIKE ?", [value])
  else (getFieldReference cfg field ++ " = ?", [value])

/-! ### Condition-model front end

The `@soapjs/soap` condition shapes (`Condition`, `ConditionWithManyKeys`,
`VariedCondition`, `NestedCondition`) dispatched by `parseCondition`'s
type guards, as an inductive tree. -/

/-- A condition tree from the Condition model. -/
inductive CondNode where
  | leaf (left : String) (operator : String) (right : JsVal)
  | manyKeys (left : List String) (operator : String) (right : JsVal)
  | varied (operator : String) (conditions : List CondNode)
  | nested (result : CondNode)

/-- `createCondition` mapped over the keys of a `ConditionWithManyKeys`
(`left.map(key => this.createCondition(key, operator, right, params))`),
collecting fragments and pushed parameters in order. -/
def createConditionKeys (cfg : ParserCfg) (operator : String) (right : JsVal) :
    List String → List String × List JsVal
  | [] => ([], [])
  | key :: rest =>
    let r := createCondition cfg key operator right
    let acc := createConditionKeys cfg operator right rest
    (r.1 :: acc.1, r.2 ++ acc.2)

/-- `parseCondition(condition)`: the Condition-model front end, with an
explicit recursion-depth fuel (first argument). -/
def parseConditionC (cfg : ParserCfg) : Nat → CondNode → Parsed
  | 0, _ => emptyParsed
  | fuel + 1, c =>
    match c with
    | .varied operator conditions =>
      let parsedConditions :=
        (conditions.map (parseConditionC cfg fuel)).filter (·.hasConditions)
      match parsedConditions with
      | [] => emptyParsed
      | ps =>
        let sqlParts := ps.map fun r => "(" ++ removeFirst r.sql "WHERE " ++ ")"
        let params := ps.flatMap (·.params)
        let op := if operator = "and" then "AND" else "OR"
        let sql := joinSep (" " ++ op ++ " ") sqlParts
        ⟨if sql.isEmpty then "" else "WHERE " ++ sql, params, !sql.isEmpty⟩
    | .nested result => parseConditionC cfg fuel result
    | .manyKeys left operator right =>
      let acc := createConditionKeys cfg operator right left
      let sql := joinSep " OR " acc.1
      ⟨if sql.isEmpty then "" else "WHERE " ++ sql, acc.2, !sql.isEmpty⟩
    | .leaf left operator right =>
      let r := createCondition cfg left operator right
      let sql := r.1
      ⟨if sql.isEmpty then "" else "WHERE " ++ sql, r.2, !sql.isEmpty⟩

/-- `parse(where)` when `where` is a `Where` instance: `where.build()`
either yields no condition (the empty clause) or is handed to
`parseCondition`. -/
def parseWhereBuild (cfg : ParserCfg) (fuel : Nat) : Option CondNode → Parsed
  | none => emptyParsed
  | some c => parseConditionC cfg fuel c

/-! ### Plain-criteria front end

`parse` / `parseCriteria` / `_parseCondition` / `_parseOperatorCondition`
/ `_parseLogicalOperator` / `_parseNotCondition`, mutually recursive on
fuel.  Every call decrements the fuel; exhaustion yields the empty
result, so any fuel at least the total size of the input reproduces the
JavaScript behaviour.  A non-array value under `$and`/`$or`/`$nor`
makes `conditions.map` throw in JavaScript; that unreachable-by-return
path is modelled as the empty fragment. -/

mutual

/-- `parse(where)` restricted to non-`Where` inputs (a `JsVal` carries
no `build` method). -/
def parseW (cfg : ParserCfg) : Nat → JsVal → Parsed
  | 0, _ => emptyParsed
  | fuel + 1, w =>
    if !w.truthy then emptyParsed
    else if w.isObjLike then parseCriteriaW cfg fuel w
    else emptyParsed

/-- `parseCriteria(criteria)`. -/
def parseCriteriaW (cfg : ParserCfg) : Nat → JsVal → Parsed
  | 0, _ => emptyParsed
  | fuel + 1, criteria =>
    if !criteria.isObjLike then emptyParsed
    else
      let acc := parseEntriesW cfg fuel criteria.entriesOf
      ⟨if acc.1.length > 0 then "WHERE " ++ joinSep " AND " acc.1 else "",
       acc.2, decide (acc.1.length > 0)⟩

/-- The `for (const [key, value] of Object.entries(criteria))` loop of
`parseCriteria`: collected truthy fragments and parameters pushed, in
iteration order. -/
def parseEntriesW (cfg : ParserCfg) : Nat → List (String × JsVal) → List String × List JsVal
  | 0, _ => ([], [])
  | _fuel + 1, [] => ([], [])
  | fuel + 1, (k, v) :: rest =>
    let r := parseConditionEntry cfg fuel k v
    let acc := parseEntriesW cfg fuel rest
    match r.1 with
    | some c => if c.isEmpty then (acc.1, r.2 ++ acc.2) else (c :: acc.1, r.2 ++ acc.2)
    | none => (acc.1, r.2 ++ acc.2)

/-- `_parseCondition(key, value, params)`. -/
def parseConditionEntry (cfg : ParserCfg) : Nat → String → JsVal → Option String × List JsVal
  | 0, _, _ => (none, [])
  | fuel + 1, key, value =>
    if "$".data.isPrefixOf key.data then parseOperatorCondition cfg fuel key value
    else if value.isPlainObj then parseFieldOperators cfg key value
    else
      let r := parseSimpleCondition cfg key value
      (some r.1, r.2)

/-- `_parseOperatorCondition(operator, value, params)`. -/
def parseOperatorCondition (cfg : ParserCfg) : Nat → String → JsVal → Option String × List JsVal
  | 0, _, _ => (none, [])
  | fuel + 1, operator, value =>
    if operator = "$and" then
      match value.asArr? with
      | some conditions => someize (parseLogicalOperator cfg fuel "AND" conditions)
      | none => (some "", [])
    else if operator = "$or" then
      match value.asArr? with
      | some conditions => someize (parseLogicalOperator cfg fuel "OR" conditions)
      | none => (some "", [])
    else if operator = "$not" then
      someize (parseNotCondition cfg fuel value)
    else if operator = "$nor" then
      match value.asArr? with
      | some conditions => someize (parseLogicalOperator cfg fuel "AND NOT" conditions)
      | none => (some "", [])
    else (none, [])

/-- `_parseLogicalOperator(logicalOp, conditions, params)`.  With
exactly one effective sub-condition the fragment is returned with its
`WHERE ` prefix stripped but its parameters are NOT pushed — the
pushing loop runs only in the several-sub-conditions branch. -/
def parseLogicalOperator (cfg : ParserCfg) : Nat → String → List JsVal → String × List JsVal
  | 0, _, _ => ("", [])
  | fuel + 1, logicalOp, conditions =>
    let parsedConditions :=
      (conditions.map (parseW cfg fuel)).filter (·.hasConditions)
    match parsedConditions with
    | [] => ("", [])
    | [p] => (removeFirst p.sql "WHERE ", [])
    | ps =>
      let sqlParts := ps.map fun r => "(" ++ removeFirst r.sql "WHERE " ++ ")"
      (joinSep (" " ++ logicalOp ++ " ") sqlParts, ps.flatMap (·.params))

/-- `_parseNotCondition(condition, params)`. -/
def parseNotCondition (cfg : ParserCfg) : Nat → JsVal → String × List JsVal
  | 0, _ => ("", [])
  | fuel + 1, condition =>
    let parsed := parseW cfg fuel condition
    if !parsed.hasConditions then ("", [])
    else ("NOT (" ++ removeFirst parsed.sql "WHERE " ++ ")", parsed.params)

end

/-- `SqlWhereParser.buildWhereClause(criteria, fieldMappings, tableAlias)`
(static): a `mysql` parser with the given alias, then `parse`. -/
def buildWhereClauseStatic (fuel : Nat) (criteria : JsVal) (tableAlias : Option String) : Parsed :=
  parseW ⟨.mysql, tableAlias⟩ fuel criteria

/-! ## Statement utilities (`src/sql.utils.ts`, class `SqlUtils`) -/

/-- `SqlUtils.escapeIdentifier(identifier, databaseType?)`: dialect
quoting with quote-character doubling — backticks for MySQL, double
quotes for PostgreSQL, SQLite and the no-dialect default; the empty
identifier (falsy) stays empty. -/
def escapeIdentifierU (identifier : String) (databaseType : Option DatabaseType) : String :=
  if identifier.isEmpty then ""
  else
    match databaseType with
    | some .mysql =>
      "`" ++ String.mk (identifier.data.flatMap fun c =>
        if c = '`' then ['`', '`'] else [c]) ++ "`"
    | _ =>
      "\"" ++ String.mk (identifier.data.flatMap fun c =>
        if c = '"' then ['"', '"'] else [c]) ++ "\""

/-- `SqlUtils.toSqlValue(value, databaseType)`.  (`Date` values are not
in the modelled value universe; the `instanceof Date` arm is vacuous.) -/
def toSqlValue (value : JsVal) (databaseType : DatabaseType) : JsVal :=
  match value with
  | .vNull => .vNull
  | .vUndef => .vNull
  | .vBool b =>
    match databaseType with
    | .mysql => .vNum (if b then 1 else 0)
    | .sqlite => .vNum (if b then 1 else 0)
    | .postgresql => .vBool b
  | .vObj fs => .vStr (jsonStringify (.vObj fs))
  | v => v

/-- The inner `switch (operator)` of `SqlUtils.buildWhereClause` for an
operator-object entry: emitted clauses and pushed parameters of one
`[operator, operatorValue]` pair.  `value` is the whole operator
object, pushed by the unknown-operator `default` arm. -/
def buildWhereOpEntry (dt : DatabaseType) (key : String) (value : JsVal)
    (op : String) (opValue : JsVal) : List String × List JsVal :=
  let esc := escapeIdentifierU key (some dt)
  if op = "$gte" then ([esc ++ " >= ?"], [toSqlValue opValue dt])
  else if op = "$lte" then ([esc ++ " <= ?"], [toSqlValue opValue dt])
  else if op = "$gt" then ([esc ++ " > ?"], [toSqlValue opValue dt])
  else if op = "$lt" then ([esc ++ " < ?"], [toSqlValue opValue dt])
  else if op = "$ne" then ([esc ++ " != ?"], [toSqlValue opValue dt])
  else if op = "$in" then
    match opValue with
    | .vArr vs =>
      ([esc ++ " IN (" ++ joinSep ", " (vs.map fun _ => "?") ++ ")"],
       vs.map (toSqlValue · dt))
    | _ => ([], [])
  else if op = "$nin" then
    match opValue with
    | .vArr vs =>
      ([esc ++ " NOT IN (" ++ joinSep ", " (vs.map fun _ => "?") ++ ")"],
       vs.map (toSqlValue · dt))
    | _ => ([], [])
  else if op = "$like" then ([esc ++ " LIKE ?"], [toSqlValue opValue dt])
  else ([esc ++ " = ?"], [toSqlValue value dt])

/-- The operator-object loop of `SqlUtils.buildWhereClause`. -/
def buildWhereOpEntries (dt : DatabaseType) (key : String) (value : JsVal) :
    List (String × JsVal) → List String × List JsVal
  | [] => ([], [])
  | (op, opValue) :: rest =>
    let r := buildWhereOpEntry dt key value op opValue
    let acc := buildWhereOpEntries dt key value rest
    (r.1 ++ acc.1, r.2 ++ acc.2)

/-- One `[key, value]` entry of `SqlUtils.buildWhereClause`. -/
def buildWhereEntry (dt : DatabaseType) (key : String) (value : JsVal) :
    List String × List JsVal :=
  let esc := escapeIdentifierU key (some dt)
  match value with
  | .vNull => ([esc ++ " IS NULL"], [])
  | .vUndef => ([esc ++ " IS NULL"], [])
  | .vArr [] => (["1 = 0"], [])
  | .vArr vs =>
    ([esc ++ " IN (" ++ joinSep ", " (vs.map fun _ => "?") ++ ")"], vs)
  | .vObj fs => buildWhereOpEntries dt key (.vObj fs) fs
  | v => ([esc ++ " = ?"], [toSqlValue v dt])

/-- The entry loop of `SqlUtils.buildWhereClause`. -/
def buildWhereEntriesU (dt : DatabaseType) :
    List (String × JsVal) → List String × List JsVal
  | [] => ([], [])
  | (k, v) :: rest =>
    let r := buildWhereEntry dt k v
    let acc := buildWhereEntriesU dt rest
    (r.1 ++ acc.1, r.2 ++ acc.2)

/-- `SqlUtils.buildWhereClause(conditions, databaseType)`: joins the
clause fragments with `AND`, or yields the constant-true `1 = 1` when
nothing was emitted.  (The `console.log` calls are side effects with no
bearing on the result.) -/
def buildWhereClauseU (conditions : JsVal) (dt : DatabaseType) : String × List JsVal :=
  let acc := buildWhereEntriesU dt conditions.entriesOf
  (if acc.1.isEmpty then "1 = 1" else joinSep " AND " acc.1, acc.2)

/-- `orderBy` argument of `SqlUtils.buildOrderByClause`: a direction
record or a plain field list. -/
inductive OrderByArg where
  | record (entries : List (String × String))
  | fieldList (fields : List String)

/-- `SqlUtils.buildOrderByClause(orderBy)`: note it calls
`escapeIdentifier` WITHOUT a dialect, hence the double-quote default. -/
def buildOrderByClause : OrderByArg → String
  | .fieldList fields => joinSep ", " (fields.map (escapeIdentifierU · none))
  | .record entries =>
    joinSep ", " (entries.map fun (f, dir) => escapeIdentifierU f none ++ " " ++ dir)

/-- `SqlUtils.buildLimitClause(limit, offset)`. -/
def buildLimitClause (limit offset : Option Int) : String :=
  match limit, offset with
  | none, none => ""
  | some l, some o => "LIMIT " ++ jsIntStr o ++ ", " ++ jsIntStr l
  | some l, none => "LIMIT " ++ jsIntStr l
  | none, some _ => ""

/-! ## Statement factory (`sql.query-factory.ts`, class `SqlQueryFactory`) -/

/-- The subset of `QueryOptions` read by `buildSelectQuery`. -/
structure QueryOptionsM where
  table : String
  fields : Option (List String)
  whereQ : Option JsVal
  orderBy : Option OrderByArg
  limit : Option Int
  offset : Option Int
  groupBy : Option (List String)
  having : Option JsVal

/-- `SqlQueryFactory.buildSelectQuery(options)`. -/
def buildSelectQuery (dt : DatabaseType) (o : QueryOptionsM) : String × List JsVal :=
  let selectPart :=
    match o.fields with
    | some fs =>
      if fs.isEmpty then "*"
      else joinSep ", " (fs.map (escapeIdentifierU · (some dt)))
    | none => "*"
  let base := "SELECT " ++ selectPart ++ " FROM " ++ escapeIdentifierU o.table (some dt)
  let (sqlW, paramsW) :=
    match o.whereQ with
    | some w =>
      if w.entriesOf.isEmpty then ("", [])
      else
        let wc := buildWhereClauseU w dt
        (" WHERE " ++ wc.1, wc.2)
    | none => ("", [])
  let sqlG :=
    match o.groupBy with
    | some g =>
      if g.isEmpty then ""
      else " GROUP BY " ++ joinSep ", " (g.map (escapeIdentifierU · (some dt)))
    | none => ""
  let (sqlH, paramsH) :=
    match o.having with
    | some h =>
      if h.entriesOf.isEmpty then ("", [])
      else
        let hc := buildWhereClauseU h dt
        (" HAVING " ++ hc.1, hc.2)
    | none => ("", [])
  let sqlO :=
    match o.orderBy with
    | some ob =>
      let c := buildOrderByClause ob
      if c.isEmpty then "" else " ORDER BY " ++ c
    | none => ""
  let lc := buildLimitClause o.limit o.offset
  let sqlL := if lc.isEmpty then "" else " " ++ lc
  (base ++ sqlW ++ sqlG ++ sqlH ++ sqlO ++ sqlL, paramsW ++ paramsH)

/-- `convertSortToOrderBy(sort)`: numeric `1`/`-1` and string
`'asc'`/`'desc'` (case-insensitive) directions; everything else is
skipped.  Assignment into the result object is modelled by ordered
upsert. -/
def objSetStr : List (String × String) → String → String → List (String × String)
  | [], k, v => [(k, v)]
  | (k', v') :: rest, k, v =>
    if k' = k then (k, v) :: rest else (k', v') :: objSetStr rest k v

/-- `convertSortToOrderBy(sort)`. -/
def convertSortToOrderBy (sort : JsVal) : List (String × String) :=
  match sort with
  | .vObj entries =>
    entries.foldl (fun acc (field, direction) =>
      match direction with
      | .vNum n =>
        if n = 1 then objSetStr acc field "ASC"
        else if n = -1 then objSetStr acc field "DESC"
        else acc
      | .vStr s =>
        let u := s.toUpper
        if u = "ASC" ∨ u = "DESC" then objSetStr acc field u else acc
      | _ => acc) []
  | _ => []

/-- `FindParams` fields read by `createFindQuery`. -/
structure FindParamsM where
  limit : Option Int
  offset : Option Int
  sort : Option JsVal
  whereV : Option JsVal
  projection : Option (List (String × JsVal))

/-- The `ParsedWhereClause` rendered as the JavaScript object that
`createFindQuery` stores into `queryOptions.where` (own properties
`sql`, `params`, `hasConditions`, in declaration order). -/
def parsedToJsObj (p : Parsed) : JsVal :=
  .vObj [("sql", .vStr p.sql), ("params", .vArr p.params),
         ("hasConditions", .vBool p.hasConditions)]

/-- The `sql`/`params`/`filter` portion of the `DbQuery` returned by
`createFindQuery` (the echoed `options` field is plain input
pass-through). -/
structure FindQueryM where
  sql : String
  params : List JsVal
  filter : Option Parsed

/-- `SqlQueryFactory.createFindQuery(params, tableName?)`: parses the
where input with the instance's `SqlWhereParser`, then stores the whole
`ParsedWhereClause` OBJECT into `queryOptions.where` (it always has an
`'sql'` key) and hands it to `buildSelectQuery`. -/
def createFindQuery (dt : DatabaseType) (fuel : Nat) (p : FindParamsM)
    (tableNameArg : Option String) : FindQueryM :=
  let tableName := match tableNameArg with
                   | some t => if t.isEmpty then "default_table" else t
                   | none => "default_table"
  let orderBy := p.sort.map fun s => OrderByArg.record (convertSortToOrderBy s)
  let whereClause := p.whereV.map (parseW ⟨dt, none⟩ fuel)
  let qo : QueryOptionsM :=
    { table := tableName
      fields := p.projection.map (·.map Prod.fst)
      whereQ := whereClause.map parsedToJsObj
      orderBy := orderBy
      limit := p.limit
      offset := p.offset
      groupBy := none
      having := none }
  let r := buildSelectQuery dt qo
  ⟨r.1, r.2, whereClause⟩

/-! ## Field resolver (`src/sql.field-resolver.ts`, class `SqlFieldResolver`)

Decorator-derived mappings (`modelClass` + `reflect-metadata`) are
runtime reflection and are not modelled; the claims below concern the
configuration WITHOUT a model class, where `getFieldMappings` reads
`modelFieldMappings`.  `SqlTransformers.fromSql` string handling
(opportunistic `JSON.parse` and engine-defined `new Date` parsing) is
environment-dependent, so the database→domain direction is modelled
against an arbitrary scalar transformer `fromSqlF`; every theorem
quantifying over it covers the concrete one. -/

/-- `SqlTransformers.toSql(value, databaseType)` — same logic as
`SqlUtils.toSqlValue` (`Date` is outside the modelled universe). -/
def toSqlT (value : JsVal) (databaseType : DatabaseType) : JsVal :=
  match value with
  | .vNull => .vNull
  | .vUndef => .vNull
  | .vBool b =>
    match databaseType with
    | .mysql => .vNum (if b then 1 else 0)
    | .sqlite => .vNum (if b then 1 else 0)
    | .postgresql => .vBool b
  | .vObj fs => .vStr (jsonStringify (.vObj fs))
  | v => v

/-- The `PropertyInfo` fields the resolver reads. -/
structure PropertyInfoM where
  name : String
  toTrans : Option (JsVal → JsVal)
  fromTrans : Option (JsVal → JsVal)

/-- Resolver configuration (`FieldMappingConfig` without `modelClass`). -/
structure ResolverCfg where
  modelFieldMappings : Option (List (String × PropertyInfoM))

/-- `getFieldMappings()` for a configuration without a model class:
`this.modelFieldMappings || {}`. -/
def getFieldMappings (cfg : ResolverCfg) : List (String × PropertyInfoM) :=
  cfg.modelFieldMappings.getD []

/-- `getFieldMapping(domainField)`. -/
def getFieldMapping (cfg : ResolverCfg) (domainField : String) : Option PropertyInfoM :=
  ((getFieldMappings cfg).find? (fun kv => kv.1 == domainField)).map (·.2)

/-- `getDatabaseFieldName(domainField)`: `mapping?.name || domainField`
(an empty mapped name is falsy and also falls back). -/
def getDatabaseFieldName (cfg : ResolverCfg) (domainField : String) : String :=
  match getFieldMapping cfg domainField with
  | some m => if m.name.isEmpty then domainField else m.name
  | none => domainField

/-- `getDomainFieldName(databaseField)`: linear reverse scan with
identity fallback. -/
def getDomainFieldName (cfg : ResolverCfg) (databaseField : String) : String :=
  match (getFieldMappings cfg).find? (fun kv => kv.2.name == databaseField) with
  | some kv => kv.1
  | none => databaseField

/-- `transformToDatabase(domainField, value)`. -/
def transformToDatabase (dt : DatabaseType) (cfg : ResolverCfg)
    (domainField : String) (value : JsVal) : JsVal :=
  match getFieldMapping cfg domainField with
  | none => toSqlT value dt
  | some m =>
    match m.toTrans with
    | some t => toSqlT (t value) dt
    | none => toSqlT value dt

/-- `transformFromDatabase(domainField, value)` against an arbitrary
scalar transformer standing for `SqlTransformers.fromSql(·, dt)`. -/
def transformFromDatabase (fromSqlF : JsVal → JsVal) (cfg : ResolverCfg)
    (domainField : String) (value : JsVal) : JsVal :=
  match getFieldMapping cfg domainField with
  | none => fromSqlF value
  | some m =>
    let sqlValue := fromSqlF value
    match m.fromTrans with
    | some t => t sqlValue
    | none => sqlValue

/-- JavaScript property assignment `obj[k] = v` on an insertion-ordered
object: overwrite in place or append. -/
def objSet : List (String × JsVal) → String → JsVal → List (String × JsVal)
  | [], k, v => [(k, v)]
  | (k', v') :: rest, k, v =>
    if k' = k then (k, v) :: rest else (k', v') :: objSet rest k v

/-- `obj.hasOwnProperty(k)` + `obj[k]` on a modelled object. -/
def objGet? (obj : List (String × JsVal)) (k : String) : Option JsVal :=
  (obj.find? (fun kv => kv.1 == k)).map (·.2)

/-- The mapping loop of `transformObjectToDatabase(domainObject)`. -/
def transformObjToDbGo (dt : DatabaseType) (cfg : ResolverCfg)
    (domainObject : List (String × JsVal)) :
    List (String × PropertyInfoM) → List (String × JsVal) → List (String × JsVal)
  | [], acc => acc
  | (domainField, mapping) :: rest, acc =>
    match objGet? domainObject domainField with
    | some value =>
      match transformToDatabase dt cfg domainField value with
      | .vUndef => transformObjToDbGo dt cfg domainObject rest acc
      | tv => transformObjToDbGo dt cfg domainObject rest (objSet acc mapping.name tv)
    | none => transformObjToDbGo dt cfg domainObject rest acc

/-- `transformObjectToDatabase(domainObject)`: iterates the KNOWN
mapping set; with an empty mapping set the loop body never runs. -/
def transformObjectToDatabase (dt : DatabaseType) (cfg : ResolverCfg)
    (domainObject : List (String × JsVal)) : List (String × JsVal) :=
  transformObjToDbGo dt cfg domainObject (getFieldMappings cfg) []

/-- The mapping loop of `transformObjectFromDatabase(databaseObject)`. -/
def transformObjFromDbGo (fromSqlF : JsVal → JsVal) (cfg : ResolverCfg)
    (databaseObject : List (String × JsVal)) :
    List (String × PropertyInfoM) → List (String × JsVal) → List (String × JsVal)
  | [], acc => acc
  | (domainField, mapping) :: rest, acc =>
    match objGet? databaseObject mapping.name with
    | some value =>
      match transformFromDatabase fromSqlF cfg domainField value with
      | .vUndef => transformObjFromDbGo fromSqlF cfg databaseObject rest acc
      | tv => transformObjFromDbGo fromSqlF cfg databaseObject rest (objSet acc domainField tv)
    | none => transformObjFromDbGo fromSqlF cfg databaseObject rest acc

/-- `transformObjectFromDatabase(databaseObject)`. -/
def transformObjectFromDatabase (fromSqlF : JsVal → JsVal) (cfg : ResolverCfg)
    (databaseObject : List (String × JsVal)) : List (String × JsVal) :=
  transformObjFromDbGo fromSqlF cfg databaseObject (getFieldMappings cfg) []

/-! ## Helper lemmas -/

theorem countQ_append (a b : String) : countQ (a ++ b) = countQ a + countQ b := by
  simp [countQ, String.data_append]

theorem countQ_mk (l : List Char) : countQ (String.mk l) = l.count '?' := rfl

theorem string_eq_empty_iff (s : String) : s = "" ↔ s.data = [] := by
  constructor
  · intro h; simp [h]
  · intro h; cases s; simp_all

theorem where_append_ne_empty (s : String) : ("WHERE " ++ s) ≠ "" := by
  intro h
  have := congrArg String.data h
  simp [String.data_append] at this

theorem where_prefix_append (s : String) :
    "WHERE ".data.isPrefixOf ("WHERE " ++ s).data = true := by
  simp [List.isPrefixOf_iff_prefix, String.data_append]

theorem countQ_joinSep_ge (sep : String) (parts : List String) :
    (parts.map countQ).sum ≤ countQ (joinSep sep parts) := by
  induction parts with
  | nil => simp [joinSep]
  | cons x xs ih =>
    cases xs with
    | nil => simp [joinSep]
    | cons y ys =>
      simp only [joinSep, List.map_cons, List.sum_cons, countQ_append]
      have := ih
      simp only [List.map_cons, List.sum_cons] at this
      omega

theorem countQ_joinSep_eq (sep : String) (hsep : countQ sep = 0) (parts : List String) :
    countQ (joinSep sep parts) = (parts.map countQ).sum := by
  induction parts with
  | nil => simp [joinSep, countQ]
  | cons x xs ih =>
    cases xs with
    | nil => simp [joinSep]
    | cons y ys =>
      simp only [joinSep, List.map_cons, List.sum_cons, countQ_append, hsep]
      simp only [joinSep, List.map_cons, List.sum_cons] at ih
      omega

theorem countQ_removeFirstL (pat : List Char) (hpat : pat.count '?' = 0) :
    ∀ l : List Char, (removeFirstL pat l).count '?' = l.count '?' := by
  intro l
  induction l with
  | nil => simp [removeFirstL]
  | cons c rest ih =>
    by_cases h : pat.isPrefixOf (c :: rest)
    · simp only [removeFirstL, h, if_true]
      rw [List.isPrefixOf_iff_prefix] at h
      obtain ⟨t, ht⟩ := h
      rw [← ht, List.drop_left]
      have : (pat ++ t).count '?' = pat.count '?' + t.count '?' := by
        simp [List.count_append]
      omega
    · simp only [removeFirstL, if_neg h, List.count_cons]
      rw [ih]

theorem countQ_removeFirst_where (s : String) :
    countQ (removeFirst s "WHERE ") = countQ s := by
  simp only [removeFirst, countQ_mk]
  exact countQ_removeFirstL "WHERE ".data (by decide) s.data

theorem countQ_escapeIdentifierW (f : String) :
    countQ (escapeIdentifierW f) = countQ f := by
  have hflat : ∀ l : List Char, (l.flatMap escWhereChar).count '?' = l.count '?' := by
    intro l
    induction l with
    | nil => simp
    | cons c rest ih =>
      simp only [List.flatMap_cons, List.count_append, ih, List.count_cons]
      have hc : (escWhereChar c).count '?' = (if c = '?' then 1 else 0) := by
        simp only [escWhereChar]
        by_cases h1 : c = '`' <;> by_cases h2 : c = '\'' <;> by_cases h3 : c = '"' <;>
          simp_all [List.count_cons]
      rw [hc]
      rcases Decidable.em (c = '?') with h | h <;> simp [h] <;> omega
  unfold escapeIdentifierW
  have hdata : ("`" ++ String.mk (f.data.flatMap escWhereChar) ++ "`").data
      = "`".data ++ f.data.flatMap escWhereChar ++ "`".data := by
    simp [String.data_append]
  simp only [countQ, hdata, List.count_append, hflat]
  have hb : List.count '?' ['`'] = 0 := by decide
  omega

theorem countQ_getFieldReference (cfg : ParserCfg) (f : String)
    (hf : countQ f = 0)
    (ha : ∀ a, cfg.tableAlias = some a → countQ a = 0) :
    countQ (getFieldReference cfg f) = 0 := by
  rcases hta : cfg.tableAlias with _ | a
  · simp [getFieldReference, hta, countQ_escapeIdentifierW, hf]
  · have haa := ha a hta
    simp only [getFieldReference, hta]
    by_cases he : a.isEmpty
    · simp [he, countQ_escapeIdentifierW, hf]
    · rw [if_neg he, countQ_append, countQ_append, countQ_escapeIdentifierW, haa, hf]
      have hdot : countQ "." = 0 := rfl
      rw [hdot]

/-! ## C10 — `ParsedWhereClause` shape invariant -/

/-- The shape invariant of a `ParsedWhereClause`: `hasConditions` holds
exactly when `sql` is non-empty, and a non-empty `sql` begins with the
literal prefix `WHERE `. -/
def ParsedInv (r : Parsed) : Prop :=
  (r.hasConditions = true ↔ r.sql ≠ "") ∧
  (r.sql ≠ "" → "WHERE ".data.isPrefixOf r.sql.data = true)

theorem emptyParsed_inv : ParsedInv emptyParsed := by
  constructor
  · simp [emptyParsed]
  · intro h; simp [emptyParsed] at h

theorem clauseInv_isEmpty (s : String) (p : List JsVal) :
    ParsedInv ⟨if s.isEmpty then "" else "WHERE " ++ s, p, !s.isEmpty⟩ := by
  by_cases h : s.isEmpty
  · simp [ParsedInv, h]
  · have hfs : s.isEmpty = false := by revert h; cases s.isEmpty <;> simp
    simp [ParsedInv, hfs, where_append_ne_empty s, where_prefix_append s]

theorem clauseInv_len (conds : List String) (p : List JsVal) :
    ParsedInv ⟨if conds.length > 0 then "WHERE " ++ joinSep " AND " conds else "",
               p, decide (conds.length > 0)⟩ := by
  by_cases h : conds.length > 0
  · simp [ParsedInv, h, where_append_ne_empty, where_prefix_append]
  · simp [ParsedInv, h]

theorem parser_inv (fuel : Nat) :
    ∀ cfg : ParserCfg,
      (∀ w, ParsedInv (parseW cfg fuel w)) ∧
      (∀ w, ParsedInv (parseCriteriaW cfg fuel w)) ∧
      (∀ c, ParsedInv (parseConditionC cfg fuel c)) := by
  induction fuel with
  | zero =>
    intro cfg
    refine ⟨fun w => ?_, fun w => ?_, fun c => ?_⟩ <;>
      simpa [parseW, parseCriteriaW, parseConditionC] using emptyParsed_inv
  | succ n ih =>
    intro cfg
    refine ⟨fun w => ?_, fun w => ?_, fun c => ?_⟩
    · show ParsedInv (parseW cfg (n + 1) w)
      rw [parseW]
      by_cases h1 : w.truthy
      · simp only [h1]
        by_cases h2 : w.isObjLike
        · simpa [h2] using (ih cfg).2.1 w
        · simpa [h2] using emptyParsed_inv
      · simpa [h1] using emptyParsed_inv
    · show ParsedInv (parseCriteriaW cfg (n + 1) w)
      rw [parseCriteriaW]
      by_cases h1 : w.isObjLike
      · simp only [h1, Bool.not_true, Bool.false_eq_true, if_false]
        exact clauseInv_len _ _
      · simpa [h1] using emptyParsed_inv
    · show ParsedInv (parseConditionC cfg (n + 1) c)
      simp only [parseConditionC]
      cases c with
      | varied operator conditions =>
        simp only []
        cases hp : (conditions.map (parseConditionC cfg n)).filter (·.hasConditions) with
        | nil => exact emptyParsed_inv
        | cons p ps => exact clauseInv_isEmpty _ _
      | nested result => exact (ih cfg).2.2 result
      | manyKeys left operator right => exact clauseInv_isEmpty _ _
      | leaf left operator right => exact clauseInv_isEmpty _ _

/-- C10: Every `ParsedWhereClause` returned by the where parser — by
`parse` or `parseCriteria` on any modelled input (objects, arrays,
`null`, `undefined`, primitives), or by the internal `parseCondition`
path on any condition tree — satisfies: `hasConditions` is `true`
exactly when `sql` is non-empty, and a non-empty `sql` begins with the
literal prefix `"WHERE "`; and for falsy input, `parse` returns exactly
`{ sql: '', params: [], hasConditions: false }`. -/
theorem c10_parsed_invariant :
    (∀ (cfg : ParserCfg) (fuel : Nat) (w : JsVal),
      ParsedInv (parseW cfg fuel w) ∧ ParsedInv (parseCriteriaW cfg fuel w)) ∧
    (∀ (cfg : ParserCfg) (fuel : Nat) (c : CondNode),
      ParsedInv (parseConditionC cfg fuel c)) ∧
    (∀ (cfg : ParserCfg) (fuel : Nat) (w : JsVal),
      w.truthy = false → parseW cfg fuel w = emptyParsed) := by
  refine ⟨fun cfg fuel w => ⟨(parser_inv fuel cfg).1 w, (parser_inv fuel cfg).2.1 w⟩,
          fun cfg fuel c => (parser_inv fuel cfg).2.2 c,
          fun cfg fuel w hw => ?_⟩
  cases fuel with
  | zero => rfl
  | succ n => simp [parseW, hw]

/-- Witness for C10 at concrete inputs: a non-empty translation has
`hasConditions = true`, and the falsy input `null` yields exactly the
empty result. -/
theorem c10_parsed_invariant_witness :
    (parseW ⟨.mysql, none⟩ 5 (.vObj [("name", .vStr "John")])).hasConditions = true ∧
    parseW ⟨.mysql, none⟩ 5 .vNull = emptyParsed :=
  ⟨(c10_parsed_invariant.1 ⟨.mysql, none⟩ 5 (.vObj [("name", .vStr "John")])).1.1.mpr
      (by decide),
   c10_parsed_invariant.2.2 ⟨.mysql, none⟩ 5 .vNull rfl⟩

/-! ## C1 — placeholder/parameter accounting -/

theorem countQ_placeholders (vs : List JsVal) :
    countQ (joinSep ", " (vs.map fun _ => "?")) = vs.length := by
  rw [countQ_joinSep_eq ", " (by decide)]
  induction vs with
  | nil => simp
  | cons x xs ih =>
    simp only [List.map_cons, List.sum_cons, List.length_cons, ih]
    have h1 : countQ "?" = 1 := by decide
    omega

theorem length_flatMap_params (ps : List Parsed) :
    (ps.flatMap (·.params)).length = (ps.map (fun r => r.params.length)).sum := by
  induction ps with
  | nil => simp
  | cons x xs ih => simp [ih]

theorem countQ_wrapWhere (s : String) :
    countQ (if s.isEmpty then "" else "WHERE " ++ s) = countQ s := by
  by_cases h : s.isEmpty
  · have hs : s = "" := (String.isEmpty_iff s).mp h
    subst hs
    decide
  · rw [if_neg h, countQ_append]
    have : countQ "WHERE " = 0 := by decide
    omega

theorem buildComparison_le (f op : String) (v : JsVal) :
    (buildComparison f op v).2.length ≤ countQ (buildComparison f op v).1 := by
  simp only [buildComparison, List.length_cons, List.length_nil, countQ_append]
  have h1 : countQ " ?" = 1 := by decide
  omega

theorem buildInCondition_le (f : String) (v : JsVal) (neg : Bool) :
    (buildInCondition f v neg).2.length ≤ countQ (buildInCondition f v neg).1 := by
  cases v with
  | vArr vs =>
    cases vs with
    | nil => simp [buildInCondition]
    | cons x xs =>
      simp only [buildInCondition, countQ_append, countQ_placeholders]
      simp only [List.length_cons]
      omega
  | vNull => simp [buildInCondition]
  | vUndef => simp [buildInCondition]
  | vBool b => simp [buildInCondition]
  | vNum n => simp [buildInCondition]
  | vStr s => simp [buildInCondition]
  | vObj fs => simp [buildInCondition]

theorem buildLikeCondition_le (f : String) (p : JsVal) (neg : Bool) :
    (buildLikeCondition f p neg).2.length ≤ countQ (buildLikeCondition f p neg).1 := by
  simp only [buildLikeCondition, List.length_cons, List.length_nil, countQ_append]
  have h1 : countQ " ?" = 1 := by decide
  omega

theorem buildRegexCondition_le (f p : String) (neg : Bool) :
    (buildRegexCondition f p neg).2.length ≤ countQ (buildRegexCondition f p neg).1 := by
  simpa [buildRegexCondition] using
    buildLikeCondition_le f (.vStr (regexToLike p)) neg

theorem buildExistsCondition_le (f : String) (v : JsVal) (neg : Bool) :
    (buildExistsCondition f v neg).2.length ≤ countQ (buildExistsCondition f v neg).1 := by
  simp only [buildExistsCondition]
  split_ifs <;> simp

theorem buildBetweenCondition_le (f : String) (v : JsVal) (neg : Bool) :
    (buildBetweenCondition f v neg).2.length ≤ countQ (buildBetweenCondition f v neg).1 := by
  have h2 : countQ " ? AND ?" = 2 := by decide
  cases v with
  | vArr vs =>
    match vs with
    | [] => simp [buildBetweenCondition]
    | [a] => simp [buildBetweenCondition]
    | [a, b] =>
      simp only [buildBetweenCondition, countQ_append, List.length_cons, List.length_nil]
      omega
    | a :: b :: c :: rest => simp [buildBetweenCondition]
  | vNull => simp [buildBetweenCondition]
  | vUndef => simp [buildBetweenCondition]
  | vBool b => simp [buildBetweenCondition]
  | vNum n => simp [buildBetweenCondition]
  | vStr s => simp [buildBetweenCondition]
  | vObj fs => simp [buildBetweenCondition]

theorem createJsonExtractCondition_le (cfg : ParserCfg) (f : String) (path v : JsVal) :
    (createJsonExtractCondition cfg f path v).2.length ≤
      countQ (createJsonExtractCondition cfg f path v).1 := by
  have h1 : countQ "' = ?" = 1 := by decide
  have h2 : countQ "') = ?" = 1 := by decide
  cases cfg.databaseType <;>
    simp only [createJsonExtractCondition] <;>
    split <;>
    simp_all [countQ_append] <;> omega

theorem createJsonPathCondition_le (cfg : ParserCfg) (f : String) (path : JsVal) :
    (createJsonPathCondition cfg f path).2.length ≤
      countQ (createJsonPathCondition cfg f path).1 := by
  rcases hdt : cfg.databaseType with _ | _ | _ <;>
    simp only [createJsonPathCondition, hdt]
  · exact createJsonExtractCondition_le cfg f path .vNull
  · simp
  · exact createJsonExtractCondition_le cfg f path .vNull

theorem createFullTextSearchCondition_le (cfg : ParserCfg) (f : String) (term : JsVal) :
    (createFullTextSearchCondition cfg f term).2.length ≤
      countQ (createFullTextSearchCondition cfg f term).1 := by
  have h1 : countQ ") @@ plainto_tsquery('english', ?)" = 1 := by decide
  have h2 : countQ ") AGAINST(? IN BOOLEAN MODE)" = 1 := by decide
  have h3 : countQ " MATCH ?" = 1 := by decide
  rcases hdt : cfg.databaseType with _ | _ | _ <;>
    simp only [createFullTextSearchCondition, hdt, countQ_append, List.length_cons,
      List.length_nil] <;> omega

theorem createArrayContainsCondition_le (cfg : ParserCfg) (f : String) (vs : JsVal) :
    (createArrayContainsCondition cfg f vs).2.length ≤
      countQ (createArrayContainsCondition cfg f vs).1 := by
  have h1 : countQ " @> ?" = 1 := by decide
  have h2 : countQ ", ?)" = 1 := by decide
  have h3 : countQ ", '$') = ?" = 1 := by decide
  rcases hdt : cfg.databaseType with _ | _ | _ <;>
    simp only [createArrayContainsCondition, hdt, countQ_append, List.length_cons,
      List.length_nil] <;> omega

theorem createTextSearchCondition_le (cfg : ParserCfg) (f : String) (term : JsVal) :
    (createTextSearchCondition cfg f term).2.length ≤
      countQ (createTextSearchCondition cfg f term).1 := by
  have h1 : countQ " LIKE ?" = 1 := by decide
  simp only [createTextSearchCondition, countQ_append, List.length_cons, List.length_nil]
  omega

theorem parseSimpleCondition_le (cfg : ParserCfg) (f : String) (v : JsVal) :
    (parseSimpleCondition cfg f v).2.length ≤ countQ (parseSimpleCondition cfg f v).1 := by
  cases v with
  | vNull => simp [parseSimpleCondition]
  | vUndef => simp [parseSimpleCondition]
  | vBool b => exact buildComparison_le _ "=" _
  | vNum n => exact buildComparison_le _ "=" _
  | vStr s => exact buildComparison_le _ "=" _
  | vArr es => exact buildComparison_le _ "=" _
  | vObj fs => exact buildComparison_le _ "=" _

/-- The operators recognised by `_parseFieldOperator`'s `switch`
(the `ComparisonOperator` union of `sql.where.parser.ts`). -/
def plainOps : List String :=
  ["eq", "ne", "gt", "gte", "lt", "lte", "in", "nin", "like", "nlike",
   "regex", "nregex", "exists", "nexists", "between", "nbetween",
   "json_extract", "json_path", "full_text_search", "array_contains", "text_search"]

/-- An operator outside the dispatch table hits the `default` arm of
`_parseFieldOperator`: `null` is returned and nothing is pushed. -/
theorem parseFieldOperator_unknown (cfg : ParserCfg) (f op : String) (v : JsVal)
    (h : op ∉ plainOps) : parseFieldOperator cfg f op v = (none, []) := by
  simp only [plainOps, List.mem_cons, List.not_mem_nil, or_false, not_or] at h
  obtain ⟨h1, h2, h3, h4, h5, h6, h7, h8, h9, h10, h11, h12, h13, h14, h15,
    h16, h17, h18, h19, h20, h21⟩ := h
  unfold parseFieldOperator
  rw [if_neg h1, if_neg h2, if_neg h3, if_neg h4, if_neg h5, if_neg h6, if_neg h7,
    if_neg h8, if_neg h9, if_neg h10, if_neg h11, if_neg h12, if_neg h13, if_neg h14,
    if_neg h15, if_neg h16, if_neg h17, if_neg h18, if_neg h19, if_neg h20, if_neg h21]

set_option maxHeartbeats 1000000 in
theorem parseFieldOperator_le (cfg : ParserCfg) (f op : String) (v : JsVal) :
    (parseFieldOperator cfg f op v).2.length ≤
      countQ ((parseFieldOperator cfg f op v).1.getD "") := by
  by_cases hmem : op ∈ plainOps
  · simp only [plainOps, List.mem_cons, List.not_mem_nil, or_false] at hmem
    rcases hmem with h|h|h|h|h|h|h|h|h|h|h|h|h|h|h|h|h|h|h|h|h
    all_goals subst h
    all_goals
      first
      | exact buildComparison_le _ _ _
      | exact buildInCondition_le _ _ _
      | exact buildLikeCondition_le _ _ _
      | exact buildExistsCondition_le _ _ _
      | exact buildBetweenCondition_le _ _ _
      | exact createJsonExtractCondition_le _ _ _ _
      | exact createJsonPathCondition_le _ _ _
      | exact createFullTextSearchCondition_le _ _ _
      | exact createArrayContainsCondition_le _ _ _
      | exact createTextSearchCondition_le _ _ _
      | (cases v <;>
          first
          | exact buildRegexCondition_le _ _ _
          | exact Nat.zero_le _)
  · rw [parseFieldOperator_unknown cfg f op v hmem]
    exact Nat.zero_le _

theorem parseFieldOperatorEntries_le (cfg : ParserCfg) (f : String)
    (entries : List (String × JsVal)) :
    (parseFieldOperatorEntries cfg f entries).2.length ≤
      ((parseFieldOperatorEntries cfg f entries).1.map countQ).sum := by
  induction entries with
  | nil => simp [parseFieldOperatorEntries]
  | cons e rest ih =>
    obtain ⟨op, v⟩ := e
    have hle := parseFieldOperator_le cfg f op v
    simp only [parseFieldOperatorEntries]
    split
    · rename_i c heq
      rw [heq, Option.getD_some] at hle
      by_cases hc : c.isEmpty
      · have hce : countQ c = 0 := by
          have hc2 : c = "" := (String.isEmpty_iff c).mp hc
          subst hc2; decide
        rw [if_pos hc]
        simp only [List.length_append]
        omega
      · rw [if_neg hc]
        simp only [List.length_append, List.map_cons, List.sum_cons]
        omega
    · rename_i heq
      rw [heq, Option.getD_none] at hle
      have hz : countQ "" = 0 := by decide
      simp only [List.length_append]
      omega

theorem parseFieldOperators_le (cfg : ParserCfg) (f : String) (operators : JsVal) :
    (parseFieldOperators cfg f operators).2.length ≤
      countQ ((parseFieldOperators cfg f operators).1.getD "") := by
  have h := parseFieldOperatorEntries_le cfg f operators.entriesOf
  simp only [parseFieldOperators]
  rcases hk : (parseFieldOperatorEntries cfg f operators.entriesOf).1 with _ | ⟨c, cs⟩
  · rw [hk] at h
    simp only [List.map_nil, List.sum_nil] at h
    change _ ≤ countQ ""
    have hz : countQ "" = 0 := by decide
    omega
  · rw [hk] at h
    change _ ≤ countQ (joinSep " AND " (c :: cs))
    have hge := countQ_joinSep_ge " AND " (c :: cs)
    omega

theorem parser_le (fuel : Nat) :
    ∀ cfg : ParserCfg,
      (∀ w, (parseW cfg fuel w).params.length ≤ countQ (parseW cfg fuel w).sql) ∧
      (∀ w, (parseCriteriaW cfg fuel w).params.length ≤
        countQ (parseCriteriaW cfg fuel w).sql) ∧
      (∀ es, (parseEntriesW cfg fuel es).2.length ≤
        ((parseEntriesW cfg fuel es).1.map countQ).sum) ∧
      (∀ k v, (parseConditionEntry cfg fuel k v).2.length ≤
        countQ ((parseConditionEntry cfg fuel k v).1.getD "")) ∧
      (∀ op v, (parseOperatorCondition cfg fuel op v).2.length ≤
        countQ ((parseOperatorCondition cfg fuel op v).1.getD "")) ∧
      (∀ lop conds, (parseLogicalOperator cfg fuel lop conds).2.length ≤
        countQ (parseLogicalOperator cfg fuel lop conds).1) ∧
      (∀ v, (parseNotCondition cfg fuel v).2.length ≤
        countQ (parseNotCondition cfg fuel v).1) := by
  induction fuel with
  | zero =>
    intro cfg
    refine ⟨fun w => ?_, fun w => ?_, fun es => ?_, fun k v => ?_, fun op v => ?_,
      fun lop conds => ?_, fun v => ?_⟩ <;>
      simp [parseW, parseCriteriaW, parseEntriesW, parseConditionEntry,
        parseOperatorCondition, parseLogicalOperator, parseNotCondition, emptyParsed]
  | succ n ih =>
    intro cfg
    have ihW := fun w => ((ih cfg).1 w)
    have ihC := fun w => ((ih cfg).2.1 w)
    have ihE := fun es => ((ih cfg).2.2.1 es)
    have ihCE := fun k v => ((ih cfg).2.2.2.1 k v)
    have ihOC := fun op v => ((ih cfg).2.2.2.2.1 op v)
    have ihL := fun lop conds => ((ih cfg).2.2.2.2.2.1 lop conds)
    have ihN := fun v => ((ih cfg).2.2.2.2.2.2 v)
    refine ⟨fun w => ?_, fun w => ?_, fun es => ?_, fun k v => ?_, fun op v => ?_,
      fun lop conds => ?_, fun v => ?_⟩
    · -- parseW
      rw [parseW]
      by_cases h1 : w.truthy
      · by_cases h2 : w.isObjLike
        · simpa [h1, h2] using ihC w
        · simp [h1, h2, emptyParsed]
      · simp [h1, emptyParsed]
    · -- parseCriteriaW
      rw [parseCriteriaW]
      by_cases h1 : w.isObjLike
      · simp only [h1, Bool.not_true, Bool.false_eq_true, if_false]
        have he := ihE w.entriesOf
        change (parseEntriesW cfg n w.entriesOf).2.length ≤
          countQ (if (parseEntriesW cfg n w.entriesOf).1.length > 0
            then "WHERE " ++ joinSep " AND " (parseEntriesW cfg n w.entriesOf).1 else "")
        by_cases hL : (parseEntriesW cfg n w.entriesOf).1.length > 0
        · rw [if_pos hL, countQ_append]
          have hge := countQ_joinSep_ge " AND " (parseEntriesW cfg n w.entriesOf).1
          have hz : countQ "WHERE " = 0 := by decide
          omega
        · rw [if_neg hL]
          have hnil : (parseEntriesW cfg n w.entriesOf).1 = [] := by
            have : (parseEntriesW cfg n w.entriesOf).1.length = 0 := by omega
            exact List.length_eq_zero.mp this
          rw [hnil] at he
          simp only [List.map_nil, List.sum_nil] at he
          have hz : countQ "" = 0 := by decide
          omega
      · simp [h1, emptyParsed]
    · -- parseEntriesW
      cases es with
      | nil => simp [parseEntriesW]
      | cons e rest =>
        obtain ⟨k, v⟩ := e
        have hce := ihCE k v
        have hre := ihE rest
        rw [parseEntriesW]
        split
        · rename_i c heq
          rw [heq, Option.getD_some] at hce
          by_cases hc : c.isEmpty
          · have hcz : countQ c = 0 := by
              have hc2 : c = "" := (String.isEmpty_iff c).mp hc
              subst hc2; decide
            rw [if_pos hc]
            simp only [List.length_append]
            omega
          · rw [if_neg hc]
            simp only [List.length_append, List.map_cons, List.sum_cons]
            omega
        · rename_i heq
          rw [heq, Option.getD_none] at hce
          have hz : countQ "" = 0 := by decide
          simp only [List.length_append]
          omega
    · -- parseConditionEntry
      rw [parseConditionEntry]
      by_cases h1 : "$".data.isPrefixOf k.data
      · simpa [h1] using ihOC k v
      · by_cases h2 : v.isPlainObj
        · simpa [h1, h2] using parseFieldOperators_le cfg k v
        · simpa [h1, h2] using parseSimpleCondition_le cfg k v
    · -- parseOperatorCondition
      rw [parseOperatorCondition]
      by_cases h1 : op = "$and"
      · subst h1
        simp only [String.reduceEq, reduceIte]
        rcases hv : v.asArr? with _ | conds
        · exact Nat.zero_le _
        · simpa [someize] using ihL "AND" conds
      · rw [if_neg h1]
        by_cases h2 : op = "$or"
        · subst h2
          simp only [String.reduceEq, reduceIte]
          rcases hv : v.asArr? with _ | conds
          · exact Nat.zero_le _
          · simpa [someize] using ihL "OR" conds
        · rw [if_neg h2]
          by_cases h3 : op = "$not"
          · subst h3
            simp only [String.reduceEq, reduceIte]
            simpa [someize] using ihN v
          · rw [if_neg h3]
            by_cases h4 : op = "$nor"
            · subst h4
              simp only [String.reduceEq, reduceIte]
              rcases hv : v.asArr? with _ | conds
              · exact Nat.zero_le _
              · simpa [someize] using ihL "AND NOT" conds
            · rw [if_neg h4]
              exact Nat.zero_le _
    · -- parseLogicalOperator
      rw [parseLogicalOperator]
      have hmem : ∀ r ∈ (conds.map (parseW cfg n)).filter (·.hasConditions),
          r.params.length ≤ countQ r.sql := by
        intro r hr
        have hr2 := List.mem_of_mem_filter hr
        obtain ⟨w, _, hw2⟩ := List.mem_map.mp hr2
        rw [← hw2]
        exact ihW w
      rcases hp : (conds.map (parseW cfg n)).filter (·.hasConditions) with _ | ⟨p, ps⟩
      · rw [hp]
        exact Nat.zero_le _
      · cases ps with
        | nil =>
          rw [hp]
          exact Nat.zero_le _
        | cons q qs =>
          rw [hp] at hmem ⊢
          change ((p :: q :: qs).flatMap fun x => x.params).length ≤
            countQ (joinSep (" " ++ lop ++ " ")
              ((p :: q :: qs).map fun r => "(" ++ removeFirst r.sql "WHERE " ++ ")"))
          rw [length_flatMap_params]
          have hsum : ((p :: q :: qs).map (fun r => r.params.length)).sum ≤
              (((p :: q :: qs).map
                (fun r => "(" ++ removeFirst r.sql "WHERE " ++ ")")).map countQ).sum := by
            rw [List.map_map]
            apply List.sum_le_sum
            intro r hrm
            have hb := hmem r hrm
            simp only [Function.comp]
            rw [countQ_append, countQ_append, countQ_removeFirst_where]
            have hz1 : countQ "(" = 0 := by decide
            have hz2 : countQ ")" = 0 := by decide
            omega
          have hge := countQ_joinSep_ge (" " ++ lop ++ " ")
            ((p :: q :: qs).map fun r => "(" ++ removeFirst r.sql "WHERE " ++ ")")
          omega
    · -- parseNotCondition
      rw [parseNotCondition]
      by_cases h1 : (parseW cfg n v).hasConditions
      · simp only [h1, Bool.not_true, Bool.false_eq_true, if_false]
        have hb := ihW v
        change (parseW cfg n v).params.length ≤
          countQ ("NOT (" ++ removeFirst (parseW cfg n v).sql "WHERE " ++ ")")
        rw [countQ_append, countQ_append, countQ_removeFirst_where]
        have hz1 : countQ "NOT (" = 0 := by decide
        have hz2 : countQ ")" = 0 := by decide
        omega
      · simp [h1]

/-- `'?'`-freeness of the field names of a condition tree (the
hypothesis under which identifier text cannot masquerade as a
placeholder). -/
inductive NoQCond : CondNode → Prop where
  | leaf {left operator right} (h : countQ left = 0) :
      NoQCond (.leaf left operator right)
  | manyKeys {left operator right} (h : ∀ f ∈ left, countQ f = 0) :
      NoQCond (.manyKeys left operator right)
  | varied {operator conditions} (h : ∀ c ∈ conditions, NoQCond c) :
      NoQCond (.varied operator conditions)
  | nested {result} (h : NoQCond result) :
      NoQCond (.nested result)

theorem createCondition_count (cfg : ParserCfg) (f op : String) (v : JsVal)
    (hf : countQ f = 0)
    (ha : ∀ a, cfg.tableAlias = some a → countQ a = 0) :
    countQ (createCondition cfg f op v).1 = (createCondition cfg f op v).2.length := by
  have href := countQ_getFieldReference cfg f hf ha
  have e1 : countQ " IS NULL" = 0 := by decide
  have e2 : countQ " = ?" = 1 := by decide
  have e3 : countQ " IS NOT NULL" = 0 := by decide
  have e4 : countQ " != ?" = 1 := by decide
  have e5 : countQ " > ?" = 1 := by decide
  have e6 : countQ " >= ?" = 1 := by decide
  have e7 : countQ " < ?" = 1 := by decide
  have e8 : countQ " <= ?" = 1 := by decide
  have e9 : countQ " LIKE ?" = 1 := by decide
  have e10 : countQ " IN (" = 0 := by decide
  have e11 : countQ " NOT IN (" = 0 := by decide
  have e12 : countQ ")" = 0 := by decide
  have e13 : countQ "1=0" = 0 := by decide
  have e14 : countQ "1=1" = 0 := by decide
  unfold createCondition
  split_ifs
  all_goals try (simp only [countQ_append, List.length_cons, List.length_nil]; omega)
  all_goals
    rcases hv : v.asArr? with _ | ⟨_ | ⟨x, xs⟩⟩ <;>
      (simp only [countQ_append, countQ_placeholders, List.length_cons, List.length_nil]
       omega)

theorem createConditionKeys_count (cfg : ParserCfg) (op : String) (right : JsVal)
    (ha : ∀ a, cfg.tableAlias = some a → countQ a = 0) :
    ∀ keys : List String, (∀ f ∈ keys, countQ f = 0) →
      ((createConditionKeys cfg op right keys).1.map countQ).sum =
        (createConditionKeys cfg op right keys).2.length := by
  intro keys
  induction keys with
  | nil => intro _; simp [createConditionKeys]
  | cons key rest ih =>
    intro hks
    have hk : countQ key = 0 := hks key (by simp)
    have hrest := ih (fun f hf => hks f (by simp [hf]))
    simp only [createConditionKeys, List.map_cons, List.sum_cons, List.length_append]
    rw [createCondition_count cfg key op right hk ha]
    omega

theorem countQ_sep_andor (operator : String) :
    countQ (" " ++ (if operator = "and" then "AND" else "OR") ++ " ") = 0 := by
  by_cases h : operator = "and" <;> simp only [h, if_true, if_false] <;> decide

/-- Definitional reduction of the `VariedCondition` arm of
`parseCondition`, exposing the filter scrutinee for rewriting. -/
theorem parseConditionC_varied (cfg : ParserCfg) (n : Nat) (operator : String)
    (conditions : List CondNode) :
    parseConditionC cfg (n + 1) (.varied operator conditions) =
      (match (conditions.map (parseConditionC cfg n)).filter (·.hasConditions) with
       | [] => emptyParsed
       | ps =>
         ⟨(if (joinSep (" " ++ (if operator = "and" then "AND" else "OR") ++ " ")
              (ps.map fun r => "(" ++ removeFirst r.sql "WHERE " ++ ")")).isEmpty then ""
           else "WHERE " ++ joinSep (" " ++ (if operator = "and" then "AND" else "OR") ++ " ")
              (ps.map fun r => "(" ++ removeFirst r.sql "WHERE " ++ ")")),
          ps.flatMap (·.params),
          !(joinSep (" " ++ (if operator = "and" then "AND" else "OR") ++ " ")
              (ps.map fun r => "(" ++ removeFirst r.sql "WHERE " ++ ")")).isEmpty⟩) := rfl

theorem parseConditionC_count (fuel : Nat) :
    ∀ cfg : ParserCfg, (∀ a, cfg.tableAlias = some a → countQ a = 0) →
      ∀ c, NoQCond c →
        countQ (parseConditionC cfg fuel c).sql = (parseConditionC cfg fuel c).params.length := by
  induction fuel with
  | zero =>
    intro cfg _ c _
    simp only [parseConditionC, emptyParsed]
    decide
  | succ n ih =>
    intro cfg ha c hnq
    cases c with
    | leaf left operator right =>
      cases hnq with
      | leaf h =>
        have hsql : (parseConditionC cfg (n + 1) (.leaf left operator right)).sql =
            (if (createCondition cfg left operator right).1.isEmpty then ""
             else "WHERE " ++ (createCondition cfg left operator right).1) := rfl
        have hpar : (parseConditionC cfg (n + 1) (.leaf left operator right)).params =
            (createCondition cfg left operator right).2 := rfl
        rw [hsql, hpar, countQ_wrapWhere]
        exact createCondition_count cfg left operator right h ha
    | manyKeys left operator right =>
      cases hnq with
      | manyKeys h =>
        have hsql : (parseConditionC cfg (n + 1) (.manyKeys left operator right)).sql =
            (if (joinSep " OR " (createConditionKeys cfg operator right left).1).isEmpty then ""
             else "WHERE " ++ joinSep " OR " (createConditionKeys cfg operator right left).1) := rfl
        have hpar : (parseConditionC cfg (n + 1) (.manyKeys left operator right)).params =
            (createConditionKeys cfg operator right left).2 := rfl
        rw [hsql, hpar, countQ_wrapWhere, countQ_joinSep_eq " OR " (by decide)]
        exact createConditionKeys_count cfg operator right ha left h
    | nested result =>
      cases hnq with
      | nested h => exact ih cfg ha result h
    | varied operator conditions =>
      cases hnq with
      | varied h =>
        have hmem : ∀ r ∈ (conditions.map (parseConditionC cfg n)).filter (·.hasConditions),
            countQ r.sql = r.params.length := by
          intro r hr
          have hr2 := List.mem_of_mem_filter hr
          obtain ⟨c2, hc2, hw2⟩ := List.mem_map.mp hr2
          rw [← hw2]
          exact ih cfg ha c2 (h c2 hc2)
        rw [parseConditionC_varied]
        rcases hp : (conditions.map (parseConditionC cfg n)).filter (·.hasConditions)
          with _ | ⟨p, ps⟩
        · rw [hp]
          rfl
        · rw [hp] at hmem ⊢
          change countQ (if (joinSep (" " ++ (if operator = "and" then "AND" else "OR") ++ " ")
              ((p :: ps).map fun r => "(" ++ removeFirst r.sql "WHERE " ++ ")")).isEmpty then ""
            else "WHERE " ++ joinSep (" " ++ (if operator = "and" then "AND" else "OR") ++ " ")
              ((p :: ps).map fun r => "(" ++ removeFirst r.sql "WHERE " ++ ")")) =
            ((p :: ps).flatMap fun r => r.params).length
          rw [countQ_wrapWhere]
          rw [countQ_joinSep_eq _ (countQ_sep_andor operator)]
          rw [length_flatMap_params, List.map_map]
          congr 1
          apply List.map_congr_left
          intro r hrm
          have hb := hmem r hrm
          simp only [Function.comp]
          rw [countQ_append, countQ_append, countQ_removeFirst_where]
          have hz1 : countQ "(" = 0 := by decide
          have hz2 : countQ ")" = 0 := by decide
          omega

/-- C1 counterexample: in the plain-criteria front end, an `$and`
combinator with exactly one effective sub-condition returns that
sub-condition's SQL (one `?` placeholder) but DROPS its parameters, so
the placeholder count differs from `params.length`.  This input is
asserted verbatim by the repository's own test
(`'should handle single condition in logical operator'`). -/
theorem c1_counterexample :
    countQ (parseW ⟨.mysql, none⟩ 10
        (.vObj [("$and", .vArr [.vObj [("status", .vStr "active")]])])).sql ≠
      (parseW ⟨.mysql, none⟩ 10
        (.vObj [("$and", .vArr [.vObj [("status", .vStr "active")]])])).params.length := by
  decide

/-- C1 (amended): in the plain-criteria front end the parameter count
never exceeds the `?`-placeholder count of the emitted SQL (parameters
are dropped, never duplicated, by the single-effective-sub-condition
combinator branch and by the PostgreSQL `json_path` arm); and in the
Condition-model front end the two counts are exactly equal whenever the
field identifiers and the table alias contain no `'?'` character. -/
theorem c1_placeholder_accounting :
    (∀ (cfg : ParserCfg) (fuel : Nat) (w : JsVal),
      (parseW cfg fuel w).params.length ≤ countQ (parseW cfg fuel w).sql) ∧
    (∀ (cfg : ParserCfg) (fuel : Nat) (c : CondNode),
      (∀ a, cfg.tableAlias = some a → countQ a = 0) → NoQCond c →
      countQ (parseConditionC cfg fuel c).sql =
        (parseConditionC cfg fuel c).params.length) :=
  ⟨fun cfg fuel w => (parser_le fuel cfg).1 w,
   fun cfg fuel c ha hn => parseConditionC_count fuel cfg ha c hn⟩

/-- Witness for C1 at a concrete condition tree. -/
theorem c1_placeholder_accounting_witness :
    NoQCond (.leaf "age" "eq" (.vNum 25)) ∧
    countQ (parseConditionC ⟨.mysql, none⟩ 3 (.leaf "age" "eq" (.vNum 25))).sql =
      (parseConditionC ⟨.mysql, none⟩ 3 (.leaf "age" "eq" (.vNum 25))).params.length :=
  ⟨NoQCond.leaf (by decide),
   c1_placeholder_accounting.2 ⟨.mysql, none⟩ 3 (.leaf "age" "eq" (.vNum 25))
     (fun a h => nomatch h) (NoQCond.leaf (by decide))⟩

/-! ## C4 — unknown operators -/

/-- The operators the Condition-model front end (`createCondition`)
implements; every other operator falls into its `default` arm. -/
def condOps : List String :=
  ["eq", "ne", "gt", "gte", "lt", "lte", "in", "nin", "like"]

/-- C4 counterexample: the Condition-model front end does NOT silently
drop an unknown operator — `createCondition` falls through to a bound
equality, so a `Condition` with operator `"unknown_op"` emits
`` `age` = ? `` and pushes the value. -/
theorem c4_counterexample :
    (parseConditionC ⟨.mysql, none⟩ 1 (.leaf "age" "unknown_op" (.vNum 25))).sql =
      "WHERE `age` = ?" ∧
    (parseConditionC ⟨.mysql, none⟩ 1 (.leaf "age" "unknown_op" (.vNum 25))).params =
      [.vNum 25] ∧
    ("WHERE `age` = ?" : String) ≠ "" :=
  ⟨rfl, rfl, by decide⟩

/-- C4 (amended): in the plain-criteria front end an unrecognised
operator silently produces no clause (no SQL, no parameters, no
exception — the function is total); in the Condition-model front end an
unrecognised operator instead falls back to a bound equality
`field = ?`, pushing the right-hand value. -/
theorem c4_unknown_operator :
    (∀ (cfg : ParserCfg) (f op : String) (v : JsVal), op ∉ plainOps →
      parseFieldOperator cfg f op v = (none, [])) ∧
    (∀ (cfg : ParserCfg) (f op : String) (v : JsVal), op ∉ condOps →
      createCondition cfg f op v = (getFieldReference cfg f ++ " = ?", [v])) := by
  refine ⟨fun cfg f op v h => parseFieldOperator_unknown cfg f op v h,
          fun cfg f op v h => ?_⟩
  simp only [condOps, List.mem_cons, List.not_mem_nil, or_false, not_or] at h
  obtain ⟨h1, h2, h3, h4, h5, h6, h7, h8, h9⟩ := h
  unfold createCondition
  rw [if_neg h1, if_neg h2, if_neg h3, if_neg h4, if_neg h5, if_neg h6, if_neg h7,
    if_neg h8, if_neg h9]

/-- Witness for C4 at a concrete unknown operator. -/
theorem c4_unknown_operator_witness :
    parseFieldOperator ⟨.mysql, none⟩ "age" "unknown" (.vNum 25) = (none, []) ∧
    createCondition ⟨.mysql, none⟩ "age" "unknown" (.vNum 25) = ("`age` = ?", [.vNum 25]) :=
  ⟨c4_unknown_operator.1 ⟨.mysql, none⟩ "age" "unknown" (.vNum 25) (by decide),
   (c4_unknown_operator.2 ⟨.mysql, none⟩ "age" "unknown" (.vNum 25) (by decide)).trans rfl⟩

/-! ## C2 — equivalence of the two front ends -/

/-- C2 counterexample: the `between` operator (listed in the §4.3
table) translates differently through the two front ends — plain
criteria emit a real `BETWEEN ? AND ?` with two bound endpoints, the
Condition model falls into the equality `default` arm and binds the
whole array as one parameter. -/
theorem c2_counterexample :
    parseFieldOperator ⟨.mysql, none⟩ "age" "between" (.vArr [.vNum 18, .vNum 65]) =
      (some "`age` BETWEEN ? AND ?", [.vNum 18, .vNum 65]) ∧
    createCondition ⟨.mysql, none⟩ "age" "between" (.vArr [.vNum 18, .vNum 65]) =
      ("`age` = ?", [.vArr [.vNum 18, .vNum 65]]) ∧
    ("`age` BETWEEN ? AND ?" : String) ≠ "`age` = ?" :=
  ⟨rfl, rfl, by decide⟩

/-- C2 (amended): the two front ends translate a predicate to the same
SQL fragment and the same parameter list exactly for the nine operators
`createCondition` implements (`eq`, `ne`, `gt`, `gte`, `lt`, `lte`,
`in`, `nin`, `like`), where for `eq`/`ne` the value must not be
`null`/`undefined` (the plain operator form binds those as parameters
while the Condition model emits `IS [NOT] NULL`). -/
theorem c2_front_end_equivalence :
    ∀ (cfg : ParserCfg) (f op : String) (v : JsVal),
      op ∈ condOps → ((op = "eq" ∨ op = "ne") → v.isNullish = false) →
      parseFieldOperator cfg f op v = someize (createCondition cfg f op v) := by
  intro cfg f op v hmem hn
  simp only [condOps, List.mem_cons, List.not_mem_nil, or_false] at hmem
  rcases hmem with h|h|h|h|h|h|h|h|h
  · subst h
    have hnn := hn (Or.inl rfl)
    have hc : createCondition cfg f "eq" v = (getFieldReference cfg f ++ " = ?", [v]) := by
      unfold createCondition
      simp only [String.reduceEq, reduceIte, hnn, Bool.false_eq_true, if_false]
    rw [hc]
    show someize (getFieldReference cfg f ++ (" " ++ "=" ++ " ?"), [v]) = _
    have hX : (" " ++ "=" ++ " ?") = " = ?" := by decide
    rw [hX]
  · subst h
    have hnn := hn (Or.inr rfl)
    have hc : createCondition cfg f "ne" v = (getFieldReference cfg f ++ " != ?", [v]) := by
      unfold createCondition
      simp only [String.reduceEq, reduceIte, hnn, Bool.false_eq_true, if_false]
    rw [hc]
    show someize (getFieldReference cfg f ++ (" " ++ "!=" ++ " ?"), [v]) = _
    have hX : (" " ++ "!=" ++ " ?") = " != ?" := by decide
    rw [hX]
  · subst h
    have hc : createCondition cfg f "gt" v = (getFieldReference cfg f ++ " > ?", [v]) := by
      unfold createCondition
      simp only [String.reduceEq, reduceIte]
    rw [hc]
    show someize (getFieldReference cfg f ++ (" " ++ ">" ++ " ?"), [v]) = _
    have hX : (" " ++ ">" ++ " ?") = " > ?" := by decide
    rw [hX]
  · subst h
    have hc : createCondition cfg f "gte" v = (getFieldReference cfg f ++ " >= ?", [v]) := by
      unfold createCondition
      simp only [String.reduceEq, reduceIte]
    rw [hc]
    show someize (getFieldReference cfg f ++ (" " ++ ">=" ++ " ?"), [v]) = _
    have hX : (" " ++ ">=" ++ " ?") = " >= ?" := by decide
    rw [hX]
  · subst h
    have hc : createCondition cfg f "lt" v = (getFieldReference cfg f ++ " < ?", [v]) := by
      unfold createCondition
      simp only [String.reduceEq, reduceIte]
    rw [hc]
    show someize (getFieldReference cfg f ++ (" " ++ "<" ++ " ?"), [v]) = _
    have hX : (" " ++ "<" ++ " ?") = " < ?" := by decide
    rw [hX]
  · subst h
    have hc : createCondition cfg f "lte" v = (getFieldReference cfg f ++ " <= ?", [v]) := by
      unfold createCondition
      simp only [String.reduceEq, reduceIte]
    rw [hc]
    show someize (getFieldReference cfg f ++ (" " ++ "<=" ++ " ?"), [v]) = _
    have hX : (" " ++ "<=" ++ " ?") = " <= ?" := by decide
    rw [hX]
  · subst h
    cases v with
    | vArr vs =>
      cases vs with
      | nil => rfl
      | cons x xs =>
        have hX : (" " ++ "IN" ++ " (") = " IN (" := by decide
        show someize (getFieldReference cfg f ++ (" " ++ "IN" ++ " (")
            ++ joinSep ", " ((x :: xs).map fun _ => "?") ++ ")", x :: xs) =
          someize (getFieldReference cfg f ++ " IN ("
            ++ joinSep ", " ((x :: xs).map fun _ => "?") ++ ")", x :: xs)
        rw [hX]
    | vNull => rfl
    | vUndef => rfl
    | vBool b => rfl
    | vNum n => rfl
    | vStr s => rfl
    | vObj fs => rfl
  · subst h
    cases v with
    | vArr vs =>
      cases vs with
      | nil => rfl
      | cons x xs =>
        have hX : (" " ++ "NOT IN" ++ " (") = " NOT IN (" := by decide
        show someize (getFieldReference cfg f ++ (" " ++ "NOT IN" ++ " (")
            ++ joinSep ", " ((x :: xs).map fun _ => "?") ++ ")", x :: xs) =
          someize (getFieldReference cfg f ++ " NOT IN ("
            ++ joinSep ", " ((x :: xs).map fun _ => "?") ++ ")", x :: xs)
        rw [hX]
    | vNull => rfl
    | vUndef => rfl
    | vBool b => rfl
    | vNum n => rfl
    | vStr s => rfl
    | vObj fs => rfl
  · subst h
    have hc : createCondition cfg f "like" v = (getFieldReference cfg f ++ " LIKE ?", [v]) := by
      unfold createCondition
      simp only [String.reduceEq, reduceIte]
    rw [hc]
    show someize (getFieldReference cfg f ++ (" " ++ "LIKE" ++ " ?"), [v]) = _
    have hX : (" " ++ "LIKE" ++ " ?") = " LIKE ?" := by decide
    rw [hX]

/-- Witness for C2: the `gt` operator at a concrete input, plus both
front ends evaluated end-to-end on the same clause. -/
theorem c2_front_end_equivalence_witness :
    ("gt" ∈ condOps) ∧
    parseFieldOperator ⟨.mysql, none⟩ "age" "gt" (.vNum 5) =
      someize (createCondition ⟨.mysql, none⟩ "age" "gt" (.vNum 5)) ∧
    (parseW ⟨.mysql, none⟩ 10 (.vObj [("age", .vObj [("gt", .vNum 5)])])).sql =
      (parseConditionC ⟨.mysql, none⟩ 2 (.leaf "age" "gt" (.vNum 5))).sql ∧
    jsonStringify (.vArr (parseW ⟨.mysql, none⟩ 10
        (.vObj [("age", .vObj [("gt", .vNum 5)])])).params) =
      jsonStringify (.vArr (parseConditionC ⟨.mysql, none⟩ 2
        (.leaf "age" "gt" (.vNum 5))).params) :=
  ⟨by decide,
   c2_front_end_equivalence ⟨.mysql, none⟩ "age" "gt" (.vNum 5) (by decide)
     (fun hor => absurd hor (by decide)),
   by decide, by decide⟩

/-! ## Clause-level reduction for single-entry criteria -/

/-- `parseCriteria` on a one-entry criteria object is the `WHERE `
wrapping of that entry's fragment (with the entry's pushed
parameters). -/
theorem parseCriteriaW_single (cfg : ParserCfg) (n : Nat) (f : String) (v : JsVal) :
    parseCriteriaW cfg (n + 1 + 1 + 1) (.vObj [(f, v)]) =
      (match (parseConditionEntry cfg (n + 1) f v).1 with
       | some c =>
         if c.isEmpty then ⟨"", (parseConditionEntry cfg (n + 1) f v).2, false⟩
         else ⟨"WHERE " ++ c, (parseConditionEntry cfg (n + 1) f v).2, true⟩
       | none => ⟨"", (parseConditionEntry cfg (n + 1) f v).2, false⟩) := by
  rw [parseCriteriaW]
  simp only [JsVal.isObjLike, Bool.not_true, Bool.false_eq_true, if_false, JsVal.entriesOf]
  simp only [parseEntriesW.eq_def]
  rcases hr : (parseConditionEntry cfg (n + 1) f v).1 with _ | c
  · simp [hr]
  · by_cases hc : c.isEmpty
    · simp [hr, hc]
    · simp [hr, hc, joinSep]

/-- A string with a suffix of nonempty character list appended is
nonempty. -/
theorem isEmpty_append_right (s t : String) (ht : t.data ≠ []) :
    (s ++ t).isEmpty = false := by
  rw [Bool.eq_false_iff]
  intro h
  rw [String.isEmpty_iff] at h
  have hd := congrArg String.data h
  simp [String.data_append] at hd
  exact ht hd.2

/-- `_parseCondition` on a plain entry (key without a `$` prefix, value
not a plain object) is `_parseSimpleCondition`. -/
theorem parseConditionEntry_simple (cfg : ParserCfg) (n : Nat) (f : String) (v : JsVal)
    (hP : "$".data.isPrefixOf f.data = false) (hp : v.isPlainObj = false) :
    parseConditionEntry cfg (n + 1) f v =
      (some (parseSimpleCondition cfg f v).1, (parseSimpleCondition cfg f v).2) := by
  rw [parseConditionEntry]
  simp only [hP, hp, Bool.false_eq_true, if_false]

/-! ## Identifier escaping and alias prefixing (C5) -/

/-- C5 counterexample: the where parser's identifier escaping is NOT
dialect-specific — a PostgreSQL-dialect parser still emits
backtick-wrapped field references, and quote characters inside an
identifier are backslash-escaped, not doubled. -/
theorem c5_counterexample :
    (parseCriteriaW ⟨.postgresql, none⟩ 3 (.vObj [("name", .vStr "John")])).sql =
      "WHERE `name` = ?" ∧
    (parseCriteriaW ⟨.postgresql, none⟩ 3 (.vObj [("name", .vStr "John")])).sql ≠
      "WHERE \"name\" = ?" ∧
    escapeIdentifierW "na\"me" = "`na\\\"me`" ∧
    escapeIdentifierW "na\"me" ≠ "\"na\"\"me\"" :=
  ⟨by decide, by decide, by decide, by decide⟩

/-- C5 amended: in the where parser, identifier escaping is the SAME
for every dialect — wrap in backticks, backslash-escape backticks and
quotes — and a configured table alias is prefixed to every field
reference as `alias.escaped_identifier`, down to the emitted clause;
the dialect-specific quote doubling the claim describes is done by
`SqlUtils.escapeIdentifier`, not by the where parser. -/
theorem c5_identifier_escaping (dt dt2 : DatabaseType) (a f s : String) (n : Nat)
    (hP : "$".data.isPrefixOf f.data = false)
    (ha : a.isEmpty = false) (hf : f.isEmpty = false) :
    getFieldReference ⟨dt, none⟩ f = escapeIdentifierW f ∧
    getFieldReference ⟨dt, some a⟩ f = a ++ "." ++ escapeIdentifierW f ∧
    getFieldReference ⟨dt, some a⟩ f = getFieldReference ⟨dt2, some a⟩ f ∧
    parseCriteriaW ⟨dt, some a⟩ (n + 1 + 1 + 1) (.vObj [(f, .vStr s)]) =
      ⟨"WHERE " ++ (getFieldReference ⟨dt, some a⟩ f ++ " = ?"), [.vStr s], true⟩ ∧
    escapeIdentifierU f (some .mysql) =
      "`" ++ String.mk (f.data.flatMap fun c => if c = '`' then ['`', '`'] else [c]) ++ "`" ∧
    escapeIdentifierU f (some .postgresql) =
      "\"" ++ String.mk (f.data.flatMap fun c => if c = '"' then ['"', '"'] else [c]) ++ "\"" ∧
    escapeIdentifierU f (some .sqlite) = escapeIdentifierU f (some .postgresql) := by
  have hfr : getFieldReference ⟨dt, some a⟩ f = a ++ "." ++ escapeIdentifierW f := by
    simp only [getFieldReference, ha, Bool.false_eq_true, if_false]
  refine ⟨rfl, hfr, rfl, ?_, ?_, ?_, ?_⟩
  · have hentry : parseConditionEntry ⟨dt, some a⟩ (n + 1) f (.vStr s) =
        (some (getFieldReference ⟨dt, some a⟩ f ++ " = ?"), [.vStr s]) := by
      rw [parseConditionEntry_simple ⟨dt, some a⟩ n f (.vStr s) hP rfl]
      have h3 : ((" " ++ "=" ++ " ?") : String) = " = ?" := by decide
      simp only [parseSimpleCondition, buildComparison]
      rw [h3]
    rw [parseCriteriaW_single, hentry]
    have hne : (getFieldReference ⟨dt, some a⟩ f ++ " = ?").isEmpty = false :=
      isEmpty_append_right _ _ (by decide)
    simp only [hne, Bool.false_eq_true, if_false]
  · simp only [escapeIdentifierU, hf, Bool.false_eq_true, if_false]
  · simp only [escapeIdentifierU, hf, Bool.false_eq_true, if_false]
  · simp only [escapeIdentifierU, hf, Bool.false_eq_true, if_false]

/-- Witness for C5 at a PostgreSQL configuration with table alias `u`:
the aliased, backtick-escaped reference reaches the emitted clause. -/
theorem c5_identifier_escaping_witness :
    ("$".data.isPrefixOf "name".data = false) ∧
    (("u" : String).isEmpty = false) ∧
    (("name" : String).isEmpty = false) ∧
    parseCriteriaW ⟨.postgresql, some "u"⟩ 3 (.vObj [("name", .vStr "John")]) =
      ⟨"WHERE " ++ (getFieldReference ⟨.postgresql, some "u"⟩ "name" ++ " = ?"),
       [.vStr "John"], true⟩ :=
  ⟨by decide, by decide, by decide,
   (c5_identifier_escaping .postgresql .mysql "u" "name" "John" 0 (by decide)
      (by decide) (by decide)).2.2.2.1⟩

/-! ## Degraded in/nin/between conditions (C6) -/

/-- `_buildInCondition` through the array view `asArr?`. -/
theorem buildInCondition_asArr (ref : String) (v : JsVal) (neg : Bool) :
    buildInCondition ref v neg =
      (match v.asArr? with
       | some [] => (if neg then "1=1" else "1=0", [])
       | some vs =>
         (ref ++ (" " ++ (if neg then "NOT IN" else "IN") ++ " (")
           ++ joinSep ", " (vs.map fun _ => "?") ++ ")", vs)
       | none => (if neg then "1=1" else "1=0", [])) := by
  cases v with
  | vArr l => cases l <;> rfl
  | vNull => rfl
  | vUndef => rfl
  | vBool b => rfl
  | vNum m => rfl
  | vStr s => rfl
  | vObj fs => rfl

/-- `_buildBetweenCondition` on anything but a two-element array is the
degraded constant predicate. -/
theorem buildBetweenCondition_degraded (ref : String) (w : JsVal) (neg : Bool)
    (hw : ∀ a b : JsVal, w ≠ .vArr [a, b]) :
    buildBetweenCondition ref w neg = (if neg then "1=1" else "1=0", []) := by
  cases w with
  | vArr l =>
    rcases l with _ | ⟨a, _ | ⟨b, _ | ⟨c, t⟩⟩⟩
    · rfl
    · rfl
    · exact absurd rfl (hw a b)
    · rfl
  | vNull => rfl
  | vUndef => rfl
  | vBool b => rfl
  | vNum m => rfl
  | vStr s => rfl
  | vObj fs => rfl

/-- C6: an `in` condition with an empty or non-array operand yields
`1=0`, `nin` yields `1=1`, each with no bound parameters, in BOTH front
ends; `between`/`nbetween` with an operand that is not a two-element
array yield `1=0`/`1=1` with no bound parameters.  All the translating
functions are total, so none of these cases raises. -/
theorem c6_degraded_conditions (cfg : ParserCfg) (f : String) (v w : JsVal)
    (hv : v.asArr? = none ∨ v.asArr? = some [])
    (hw : ∀ a b : JsVal, w ≠ .vArr [a, b]) :
    parseFieldOperator cfg f "in" v = (some "1=0", []) ∧
    parseFieldOperator cfg f "nin" v = (some "1=1", []) ∧
    createCondition cfg f "in" v = ("1=0", []) ∧
    createCondition cfg f "nin" v = ("1=1", []) ∧
    parseFieldOperator cfg f "between" w = (some "1=0", []) ∧
    parseFieldOperator cfg f "nbetween" w = (some "1=1", []) := by
  have hbin : ∀ neg : Bool, buildInCondition (getFieldReference cfg f) v neg =
      (if neg then "1=1" else "1=0", []) := by
    intro neg
    rw [buildInCondition_asArr]
    rcases hv with h | h <;> rw [h]
  have hbet : ∀ neg : Bool, buildBetweenCondition (getFieldReference cfg f) w neg =
      (if neg then "1=1" else "1=0", []) :=
    fun neg => buildBetweenCondition_degraded _ w neg hw
  refine ⟨?_, ?_, ?_, ?_, ?_, ?_⟩
  · simp only [parseFieldOperator, String.reduceEq, reduceIte, someize, hbin false, Bool.false_eq_true, if_false]
  · simp only [parseFieldOperator, String.reduceEq, reduceIte, someize, hbin true, if_true]
  · rcases hv with h | h <;>
      simp only [createCondition, String.reduceEq, reduceIte, h]
  · rcases hv with h | h <;>
      simp only [createCondition, String.reduceEq, reduceIte, h]
  · simp only [parseFieldOperator, String.reduceEq, reduceIte, someize, hbet false, Bool.false_eq_true, if_false]
  · simp only [parseFieldOperator, String.reduceEq, reduceIte, someize, hbet true, if_true]

/-- Witness for C6: a number operand for `in`, a string operand for
`nbetween`. -/
theorem c6_degraded_conditions_witness :
    parseFieldOperator ⟨.mysql, none⟩ "tags" "in" (.vNum 3) = (some "1=0", []) ∧
    parseFieldOperator ⟨.mysql, none⟩ "age" "nbetween" (.vStr "x") = (some "1=1", []) :=
  ⟨(c6_degraded_conditions ⟨.mysql, none⟩ "tags" (.vNum 3) (.vStr "x") (Or.inl rfl)
      (fun a b h => JsVal.noConfusion h)).1,
   (c6_degraded_conditions ⟨.mysql, none⟩ "age" (.vNum 3) (.vStr "x") (Or.inl rfl)
      (fun a b h => JsVal.noConfusion h)).2.2.2.2.2⟩

/-! ## Null and undefined equality conditions (C7) -/

/-- C7 counterexample: in the plain-criteria front end an `ne: null`
condition does NOT become `IS NOT NULL` — it stays a bound `!= ?`
comparison with the null pushed as a parameter. -/
theorem c7_counterexample :
    (parseCriteriaW ⟨.mysql, none⟩ 3
        (.vObj [("deleted_at", .vObj [("ne", .vNull)])])).sql =
      "WHERE `deleted_at` != ?" ∧
    (parseCriteriaW ⟨.mysql, none⟩ 3
        (.vObj [("deleted_at", .vObj [("ne", .vNull)])])).params.length = 1 ∧
    (parseCriteriaW ⟨.mysql, none⟩ 3
        (.vObj [("deleted_at", .vObj [("ne", .vNull)])])).sql ≠
      "WHERE `deleted_at` IS NOT NULL" :=
  ⟨by decide, by decide, by decide⟩

/-- C7 amended: `null` and `undefined` are translated alike, but only
in the Condition-model front end (`createCondition`) and for direct
field values (`_parseSimpleCondition`), where `eq`/direct yields
`IS NULL` and `ne` yields `IS NOT NULL` with no bound parameters; the
plain-criteria operator form (`_parseFieldOperator`) instead binds the
nullish value as a `= ?` / `!= ?` parameter. -/
theorem c7_null_equality (cfg : ParserCfg) (f : String) (v : JsVal)
    (hv : v.isNullish = true) :
    createCondition cfg f "eq" v = (getFieldReference cfg f ++ " IS NULL", []) ∧
    createCondition cfg f "ne" v = (getFieldReference cfg f ++ " IS NOT NULL", []) ∧
    parseSimpleCondition cfg f .vNull = (getFieldReference cfg f ++ " IS NULL", []) ∧
    parseSimpleCondition cfg f .vUndef = parseSimpleCondition cfg f .vNull ∧
    parseFieldOperator cfg f "eq" v = (some (getFieldReference cfg f ++ " = ?"), [v]) ∧
    parseFieldOperator cfg f "ne" v = (some (getFieldReference cfg f ++ " != ?"), [v]) := by
  have h3 : ((" " ++ "=" ++ " ?") : String) = " = ?" := by decide
  have h4 : ((" " ++ "!=" ++ " ?") : String) = " != ?" := by decide
  refine ⟨?_, ?_, rfl, rfl, ?_, ?_⟩
  · simp only [createCondition, String.reduceEq, reduceIte, hv, if_true]
  · simp only [createCondition, String.reduceEq, reduceIte, hv, if_true]
  · simp only [parseFieldOperator, String.reduceEq, reduceIte, someize, buildComparison]
    rw [h3]
  · simp only [parseFieldOperator, String.reduceEq, reduceIte, someize, buildComparison]
    rw [h4]

/-- Witness for C7 at `deleted_at` with a literal `null`. -/
theorem c7_null_equality_witness :
    JsVal.isNullish .vNull = true ∧
    createCondition ⟨.mysql, none⟩ "deleted_at" "eq" .vNull =
      (getFieldReference ⟨.mysql, none⟩ "deleted_at" ++ " IS NULL", []) ∧
    parseFieldOperator ⟨.mysql, none⟩ "deleted_at" "ne" .vNull =
      (some (getFieldReference ⟨.mysql, none⟩ "deleted_at" ++ " != ?"), [.vNull]) :=
  ⟨rfl, (c7_null_equality ⟨.mysql, none⟩ "deleted_at" .vNull rfl).1,
   (c7_null_equality ⟨.mysql, none⟩ "deleted_at" .vNull rfl).2.2.2.2.2⟩

/-! ## Regex-to-LIKE rewriting (C8) -/

/-- C8: a `regex`/`nregex` condition rewrites its pattern with
`_regexToLike` (`.`→`_`, `*`→`%`, `?`→`_`, bracket and paren groups
→`_`, then a leading and a trailing `%`) and delegates to the
like/nlike builder; `'John.*'` becomes `'%John_%%'`, and the regex
clause is indistinguishable from the corresponding `like` clause, with
exactly one bound parameter. -/
theorem c8_regex_like_rewrite :
    (∀ (fieldRef p : String) (neg : Bool),
       buildRegexCondition fieldRef p neg =
         buildLikeCondition fieldRef (.vStr (regexToLike p)) neg) ∧
    (∀ (cfg : ParserCfg) (f p : String),
       parseFieldOperator cfg f "regex" (.vStr p) =
         someize (buildLikeCondition (getFieldReference cfg f)
           (.vStr (regexToLike p)) false)) ∧
    (∀ (cfg : ParserCfg) (f p : String),
       parseFieldOperator cfg f "nregex" (.vStr p) =
         someize (buildLikeCondition (getFieldReference cfg f)
           (.vStr (regexToLike p)) true)) ∧
    regexToLike "John.*" = "%John_%%" ∧
    (parseCriteriaW ⟨.mysql, none⟩ 3
        (.vObj [("name", .vObj [("regex", .vStr "John.*")])])).sql =
      (parseCriteriaW ⟨.mysql, none⟩ 3
        (.vObj [("name", .vObj [("like", .vStr "%John_%%")])])).sql ∧
    jsonStringify (.vArr (parseCriteriaW ⟨.mysql, none⟩ 3
        (.vObj [("name", .vObj [("regex", .vStr "John.*")])])).params) =
      jsonStringify (.vArr (parseCriteriaW ⟨.mysql, none⟩ 3
        (.vObj [("name", .vObj [("like", .vStr "%John_%%")])])).params) ∧
    (parseCriteriaW ⟨.mysql, none⟩ 3
        (.vObj [("name", .vObj [("regex", .vStr "John.*")])])).params.length = 1 := by
  have hRL : regexToLike "John.*" = "%John_%%" := by
    simp [regexToLike, repChar, repGroup]
  have hpf : parseFieldOperator ⟨.mysql, none⟩ "name" "regex" (.vStr "John.*") =
      parseFieldOperator ⟨.mysql, none⟩ "name" "like" (.vStr "%John_%%") := by
    have h1 : parseFieldOperator ⟨.mysql, none⟩ "name" "regex" (.vStr "John.*") =
        someize (buildLikeCondition (getFieldReference ⟨.mysql, none⟩ "name")
          (.vStr (regexToLike "John.*")) false) := by
      simp only [parseFieldOperator, String.reduceEq, reduceIte, buildRegexCondition]
    have h2 : parseFieldOperator ⟨.mysql, none⟩ "name" "like" (.vStr "%John_%%") =
        someize (buildLikeCondition (getFieldReference ⟨.mysql, none⟩ "name")
          (.vStr "%John_%%") false) := by
      simp only [parseFieldOperator, String.reduceEq, reduceIte]
    rw [h1, h2, hRL]
  have hentry : ∀ (op : String) (v : JsVal),
      parseConditionEntry ⟨.mysql, none⟩ (0 + 1) "name" (.vObj [(op, v)]) =
        parseFieldOperators ⟨.mysql, none⟩ "name" (.vObj [(op, v)]) := by
    intro op v
    rw [parseConditionEntry]
    rw [if_neg (by decide)]
    simp only [JsVal.isPlainObj, if_true]
  have hcl : parseCriteriaW ⟨.mysql, none⟩ 3
      (.vObj [("name", .vObj [("regex", .vStr "John.*")])]) =
      parseCriteriaW ⟨.mysql, none⟩ 3
      (.vObj [("name", .vObj [("like", .vStr "%John_%%")])]) := by
    rw [show (3 : Nat) = 0 + 1 + 1 + 1 from rfl]
    rw [parseCriteriaW_single, parseCriteriaW_single]
    rw [hentry, hentry]
    simp only [parseFieldOperators, JsVal.entriesOf, parseFieldOperatorEntries, hpf]
  refine ⟨fun fieldRef p neg => rfl, ?_, ?_, hRL, by decide, ?_, by decide⟩
  · intro cfg f p
    simp only [parseFieldOperator, String.reduceEq, reduceIte, buildRegexCondition]
  · intro cfg f p
    simp only [parseFieldOperator, String.reduceEq, reduceIte, buildRegexCondition]
  · rw [hcl]

/-! ## Resolver degradation without mappings (C9) -/

/-- C9 counterexample: with no field mappings configured the
object-level resolvers return the EMPTY object, not an identity
pass-through — an input field does not appear in the output at all. -/
theorem c9_counterexample :
    transformObjectToDatabase .mysql ⟨none⟩
      [("id", .vNum 1), ("name", .vStr "John")] = [] ∧
    transformObjectFromDatabase (fun x => x) ⟨none⟩
      [("id", .vNum 1), ("name", .vStr "John")] = [] ∧
    objGet? (transformObjectToDatabase .mysql ⟨none⟩
      [("id", .vNum 1), ("name", .vStr "John")]) "id" = none ∧
    objGet? [("id", JsVal.vNum 1), ("name", JsVal.vStr "John")] "id" =
      some (.vNum 1) :=
  ⟨rfl, rfl, rfl, rfl⟩

/-- C9 amended: with an empty mapping table the object-level resolvers
degrade to the constant EMPTY object (the loop iterates the mapping
set, not the input), while the FIELD-level resolvers do fall back to
identity. -/
theorem c9_no_mappings (dt : DatabaseType) (fromSqlF : JsVal → JsVal)
    (cfg : ResolverCfg) (obj : List (String × JsVal))
    (h : getFieldMappings cfg = []) :
    transformObjectToDatabase dt cfg obj = [] ∧
    transformObjectFromDatabase fromSqlF cfg obj = [] ∧
    (∀ f, getDatabaseFieldName cfg f = f) ∧
    (∀ f, getDomainFieldName cfg f = f) := by
  refine ⟨?_, ?_, ?_, ?_⟩
  · rw [transformObjectToDatabase, h]
    rfl
  · rw [transformObjectFromDatabase, h]
    rfl
  · intro f
    rw [getDatabaseFieldName, getFieldMapping, h]
    rfl
  · intro f
    rw [getDomainFieldName, h]
    rfl

/-- Witness for C9: morally empty configuration, a one-field object. -/
theorem c9_no_mappings_witness :
    getFieldMappings ⟨none⟩ = [] ∧
    transformObjectToDatabase .mysql ⟨none⟩ [("id", .vNum 1)] = [] ∧
    getDatabaseFieldName ⟨none⟩ "id" = "id" :=
  ⟨rfl, (c9_no_mappings .mysql (fun x => x) ⟨none⟩ [("id", .vNum 1)] rfl).1,
   (c9_no_mappings .mysql (fun x => x) ⟨none⟩ [("id", .vNum 1)] rfl).2.2.1 "id"⟩

/-! ## Factory re-translation of the parsed where object (C3) -/

/-- C3 (code bug): `createFindQuery` parses the where input into a
`ParsedWhereClause` object, stores that OBJECT into
`queryOptions.where`, and `buildSelectQuery` then feeds it to
`SqlUtils.buildWhereClause` as if it were fresh criteria — so the final
statement's WHERE fragment is a condition on the literal keys `sql`,
`params` and `hasConditions`, not the translator's compiled predicate,
and the translator's compiled SQL text ends up as a bound PARAMETER of
the statement. -/
theorem c3_factory_requotes_parsed_where :
    (parseW ⟨.mysql, none⟩ 10 (.vObj [("name", .vStr "John")])).sql =
      "WHERE `name` = ?" ∧
    jsonStringify (.vArr
      (parseW ⟨.mysql, none⟩ 10 (.vObj [("name", .vStr "John")])).params) =
      "[\"John\"]" ∧
    (createFindQuery .mysql 10
        ⟨none, none, none, some (.vObj [("name", .vStr "John")]), none⟩ none).sql =
      "SELECT * FROM `default_table` WHERE `sql` = ? AND `params` IN (?) AND `hasConditions` = ?" ∧
    jsonStringify (.vArr (createFindQuery .mysql 10
        ⟨none, none, none, some (.vObj [("name", .vStr "John")]), none⟩ none).params) =
      "[\"WHERE `name` = ?\",\"John\",1]" ∧
    (createFindQuery .mysql 10
        ⟨none, none, none, some (.vObj [("name", .vStr "John")]), none⟩ none).sql ≠
      "SELECT * FROM `default_table` " ++
        (parseW ⟨.mysql, none⟩ 10 (.vObj [("name", .vStr "John")])).sql ∧
    (createFindQuery .mysql 10
        ⟨none, none, none, some (.vObj [("name", .vStr "John")]), none⟩ none).params.length ≠
      (parseW ⟨.mysql, none⟩ 10 (.vObj [("name", .vStr "John")])).params.length :=
  ⟨by decide, by decide, by decide, by decide, by decide, by decide⟩
